import Mathlib

/-! CHIP-8 interpreter: a shallow embedding of `Chip8.hpp`.

The emulated machine of `class Chip8` is a record of its data members.  Every
C++ array becomes a function `Nat → Nat` read and written only at indices
that the code can address; an access outside the declared extent of an array,
and a call through a null member-function pointer, is undefined behaviour in
C++ and is modelled by the result `none`.  Fixed-width unsigned integers are
natural numbers, reduced modulo `2^w` wherever the C++ assignment truncates.
-/

/-! ## Constants -/

abbrev FONTSET_SIZE : Nat := 80
abbrev FONTSET_START_ADDRESS : Nat := 0x50
abbrev START_ADDRESS : Nat := 0x200
abbrev KEY_COUNT : Nat := 16
abbrev MEMORY_SIZE : Nat := 4096
abbrev REGISTER_COUNT : Nat := 16
abbrev STACK_LEVELS : Nat := 16
abbrev VIDEO_HEIGHT : Nat := 32
abbrev VIDEO_WIDTH : Nat := 64

/-- The glyph bitmaps `fontset[FONTSET_SIZE]`, five bytes per hexadecimal digit. -/
def fontset : List Nat :=
  [0xF0, 0x90, 0x90, 0x90, 0xF0,
   0x20, 0x60, 0x20, 0x20, 0x70,
   0xF0, 0x10, 0xF0, 0x80, 0xF0,
   0xF0, 0x10, 0xF0, 0x10, 0xF0,
   0x90, 0x90, 0xF0, 0x10, 0x10,
   0xF0, 0x80, 0xF0, 0x10, 0xF0,
   0xF0, 0x80, 0xF0, 0x90, 0xF0,
   0xF0, 0x10, 0x20, 0x40, 0x40,
   0xF0, 0x90, 0xF0, 0x90, 0xF0,
   0xF0, 0x90, 0xF0, 0x10, 0xF0,
   0xF0, 0x90, 0xF0, 0x90, 0x90,
   0xE0, 0x90, 0xE0, 0x90, 0xE0,
   0xF0, 0x80, 0x80, 0x80, 0xF0,
   0xE0, 0x90, 0x90, 0x90, 0xE0,
   0xF0, 0x80, 0xF0, 0x80, 0xF0,
   0xF0, 0x80, 0xF0, 0x80, 0x80]

/-! ## Machine state -/

/-- The data members of `class Chip8`.  `keypad` has `KEY_COUNT` cells, `video`
has `VIDEO_WIDTH * VIDEO_HEIGHT` cells of 32 bits, `memory` has `MEMORY_SIZE`
bytes, `registers` has `REGISTER_COUNT` bytes, `stack` has `STACK_LEVELS`
16-bit cells.  `randGen` stands for the seeded random engine: it is the
stream of bytes that `randByte(randGen)` is still going to return. -/
structure Chip8 where
  keypad : Nat → Nat
  video : Nat → Nat
  memory : Nat → Nat
  registers : Nat → Nat
  index : Nat
  pc : Nat
  delayTimer : Nat
  soundTimer : Nat
  stack : Nat → Nat
  sp : Nat
  opcode : Nat
  randGen : Nat → Nat

namespace Chip8

/-- The array store `a[i] = v`. -/
def setAt (a : Nat → Nat) (i v : Nat) : Nat → Nat :=
  fun j => if j = i then v else a j

/-- The loop `for (i = 0; i < n; ++i) body`, where an iteration may hit
undefined behaviour (`none`), which ends the run. -/
def forLoop {σ : Type} : Nat → (Nat → σ → Option σ) → σ → Option σ
  | 0, _, s => some s
  | n + 1, body, s => (forLoop n body s).bind (body n)

/-- Every stored value fits the width of its C++ type. -/
structure WF (s : Chip8) : Prop where
  keypad_lt : ∀ i, s.keypad i < 256
  video_lt : ∀ i, s.video i < 4294967296
  memory_lt : ∀ i, s.memory i < 256
  registers_lt : ∀ i, s.registers i < 256
  index_lt : s.index < 65536
  pc_lt : s.pc < 65536
  delayTimer_lt : s.delayTimer < 256
  soundTimer_lt : s.soundTimer < 256
  stack_lt : ∀ i, s.stack i < 65536
  sp_lt : s.sp < 256
  opcode_lt : s.opcode < 65536

/-! ## Instruction handlers -/

/-- `OP_NULL`: the empty handler. -/
def OP_NULL (s : Chip8) : Option Chip8 := some s

/-- 00E0 - clear the display. -/
def OP_00E0 (s : Chip8) : Option Chip8 :=
  some { s with video := fun i => if i < VIDEO_WIDTH * VIDEO_HEIGHT then 0 else s.video i }

/-- 00EE - return from a subroutine: `pc = stack[--sp]`, `sp` an 8-bit counter. -/
def OP_00EE (s : Chip8) : Option Chip8 :=
  let sp := (s.sp + 255) % 256
  if sp < STACK_LEVELS then some { s with sp := sp, pc := s.stack sp } else none

/-- 1NNN - jump to location NNN. -/
def OP_1NNN (s : Chip8) : Option Chip8 :=
  let address := s.opcode &&& 0x0FFF
  some { s with pc := address }

/-- 2NNN - call subroutine at NNN: `stack[sp++] = pc; pc = address`. -/
def OP_2NNN (s : Chip8) : Option Chip8 :=
  let address := s.opcode &&& 0x0FFF
  if s.sp < STACK_LEVELS then
    some { s with stack := setAt s.stack s.sp s.pc, sp := (s.sp + 1) % 256, pc := address }
  else none

/-- 3XKK - skip next instruction if VX == KK. -/
def OP_3XKK (s : Chip8) : Option Chip8 :=
  let VX := (s.opcode &&& 0x0F00) >>> 8
  let byte := s.opcode &&& 0x00FF
  if s.registers VX = byte then some { s with pc := (s.pc + 2) % 65536 } else some s

/-- 4XKK - skip next instruction if VX != KK. -/
def OP_4XKK (s : Chip8) : Option Chip8 :=
  let VX := (s.opcode &&& 0x0F00) >>> 8
  let byte := s.opcode &&& 0x00FF
  if s.registers VX ≠ byte then some { s with pc := (s.pc + 2) % 65536 } else some s

/-- 5XY0 - skip next instruction if VX == VY. -/
def OP_5XY0 (s : Chip8) : Option Chip8 :=
  let VX := (s.opcode &&& 0x0F00) >>> 8
  let VY := (s.opcode &&& 0x00F0) >>> 4
  if s.registers VX = s.registers VY then some { s with pc := (s.pc + 2) % 65536 } else some s

/-- 6XKK - set VX to KK. -/
def OP_6XKK (s : Chip8) : Option Chip8 :=
  let VX := (s.opcode &&& 0x0F00) >>> 8
  let byte := s.opcode &&& 0x00FF
  some { s with registers := setAt s.registers VX byte }

/-- 7XKK - set VX to VX + KK (8-bit). -/
def OP_7XKK (s : Chip8) : Option Chip8 :=
  let VX := (s.opcode &&& 0x0F00) >>> 8
  let byte := s.opcode &&& 0x00FF
  some { s with registers := setAt s.registers VX ((s.registers VX + byte) % 256) }

/-- 8XY0 - set VX to VY. -/
def OP_8XY0 (s : Chip8) : Option Chip8 :=
  let VX := (s.opcode &&& 0x0F00) >>> 8
  let VY := (s.opcode &&& 0x00F0) >>> 4
  some { s with registers := setAt s.registers VX (s.registers VY) }

/-- 8XY1 - set VX to VX OR VY. -/
def OP_8XY1 (s : Chip8) : Option Chip8 :=
  let VX := (s.opcode &&& 0x0F00) >>> 8
  let VY := (s.opcode &&& 0x00F0) >>> 4
  some { s with registers := setAt s.registers VX (s.registers VX ||| s.registers VY) }

/-- 8XY2 - set VX to VX AND VY. -/
def OP_8XY2 (s : Chip8) : Option Chip8 :=
  let VX := (s.opcode &&& 0x0F00) >>> 8
  let VY := (s.opcode &&& 0x00F0) >>> 4
  some { s with registers := setAt s.registers VX (s.registers VX &&& s.registers VY) }

/-- 8XY3 - set VX to VX XOR VY. -/
def OP_8XY3 (s : Chip8) : Option Chip8 :=
  let VX := (s.opcode &&& 0x0F00) >>> 8
  let VY := (s.opcode &&& 0x00F0) >>> 4
  some { s with registers := setAt s.registers VX (s.registers VX ^^^ s.registers VY) }

/-- 8XY4 - set VX to VX + VY and set VF to carry.  The 16-bit `sum` is taken
first, then `registers[0xF]` is written, then `registers[VX]`. -/
def OP_8XY4 (s : Chip8) : Option Chip8 :=
  let VX := (s.opcode &&& 0x0F00) >>> 8
  let VY := (s.opcode &&& 0x00F0) >>> 4
  let sum := (s.registers VX + s.registers VY) % 65536
  let s1 : Chip8 :=
    if sum > 255 then { s with registers := setAt s.registers 0xF 1 }
    else { s with registers := setAt s.registers 0xF 0 }
  some { s1 with registers := setAt s1.registers VX (sum &&& 0xFF) }

/-- 8XY5 - set VX to VX - VY and VF to NOT borrow.  `registers[0xF]` is
written first; `registers[VX] -= registers[VY]` then reads the register file
as it stands after that write. -/
def OP_8XY5 (s : Chip8) : Option Chip8 :=
  let VX := (s.opcode &&& 0x0F00) >>> 8
  let VY := (s.opcode &&& 0x00F0) >>> 4
  let s1 : Chip8 :=
    if s.registers VX > s.registers VY then { s with registers := setAt s.registers 0xF 1 }
    else { s with registers := setAt s.registers 0xF 0 }
  some { s1 with
    registers := setAt s1.registers VX ((s1.registers VX + 256 - s1.registers VY) % 256) }

/-- 8XY6 - store the least significant bit of VX in VF and shift VX to the
right by 1.  The shift reads the register file after the write to VF. -/
def OP_8XY6 (s : Chip8) : Option Chip8 :=
  let VX := (s.opcode &&& 0x0F00) >>> 8
  let s1 : Chip8 := { s with registers := setAt s.registers 0xF (s.registers VX &&& 0x1) }
  some { s1 with registers := setAt s1.registers VX (s1.registers VX >>> 1) }

/-- 8XY7 - set VX to VY - VX and VF to NOT borrow.  The subtraction reads the
register file after the write to VF. -/
def OP_8XY7 (s : Chip8) : Option Chip8 :=
  let VX := (s.opcode &&& 0x0F00) >>> 8
  let VY := (s.opcode &&& 0x00F0) >>> 4
  let s1 : Chip8 :=
    if s.registers VY > s.registers VX then { s with registers := setAt s.registers 0xF 1 }
    else { s with registers := setAt s.registers 0xF 0 }
  some { s1 with
    registers := setAt s1.registers VX ((s1.registers VY + 256 - s1.registers VX) % 256) }

/-- 8XYE - store the most significant bit of VX in VF and shift VX to the
left by 1 (8-bit).  The shift reads the register file after the write to VF. -/
def OP_8XYE (s : Chip8) : Option Chip8 :=
  let VX := (s.opcode &&& 0x0F00) >>> 8
  let s1 : Chip8 :=
    { s with registers := setAt s.registers 0xF ((s.registers VX &&& 0x80) >>> 7) }
  some { s1 with registers := setAt s1.registers VX ((s1.registers VX <<< 1) % 256) }

/-- 9XY0 - skip next instruction if VX != VY. -/
def OP_9XY0 (s : Chip8) : Option Chip8 :=
  let VX := (s.opcode &&& 0x0F00) >>> 8
  let VY := (s.opcode &&& 0x00F0) >>> 4
  if s.registers VX ≠ s.registers VY then some { s with pc := (s.pc + 2) % 65536 } else some s

/-- ANNN - set the index register to NNN. -/
def OP_ANNN (s : Chip8) : Option Chip8 :=
  let address := s.opcode &&& 0x0FFF
  some { s with index := address }

/-- BNNN - jump to location NNN + V0. -/
def OP_BNNN (s : Chip8) : Option Chip8 :=
  let address := s.opcode &&& 0x0FFF
  some { s with pc := (s.registers 0 + address) % 65536 }

/-- CXKK - set VX to random byte AND KK.  The byte drawn is the head of the
stream `randGen`, which then advances by one. -/
def OP_CXKK (s : Chip8) : Option Chip8 :=
  let VX := (s.opcode &&& 0x0F00) >>> 8
  let byte := s.opcode &&& 0x00FF
  some { s with
    registers := setAt s.registers VX ((s.randGen 0 % 256) &&& byte),
    randGen := fun n => s.randGen (n + 1) }

/-- One pass of the inner loop of `OP_DXYN`: column `col` of sprite row `row`.
The framebuffer cell is read and written only when the sprite bit is set. -/
def drawPixel (spriteByte yPos xPos row col : Nat) (s : Chip8) : Option Chip8 :=
  let spritePixel := spriteByte &&& (0x80 >>> col)
  let screenPixel := (yPos + row) * VIDEO_WIDTH + (xPos + col)
  if spritePixel ≠ 0 then
    if screenPixel < VIDEO_WIDTH * VIDEO_HEIGHT then
      let s1 : Chip8 :=
        if s.video screenPixel = 0xFFFFFFFF then { s with registers := setAt s.registers 0xF 1 }
        else s
      some { s1 with video := setAt s1.video screenPixel (s1.video screenPixel ^^^ 0xFFFFFFFF) }
    else none
  else some s

/-- One pass of the outer loop of `OP_DXYN`: sprite row `row`. -/
def drawRow (yPos xPos row : Nat) (s : Chip8) : Option Chip8 :=
  if s.index + row < MEMORY_SIZE then
    let spriteByte := s.memory (s.index + row)
    forLoop 8 (drawPixel spriteByte yPos xPos row) s
  else none

/-- DXYN - draw sprite at coordinates (VX, VY) with a width of 8 pixels and a
height of N pixels. -/
def OP_DXYN (s : Chip8) : Option Chip8 :=
  let VX := (s.opcode &&& 0x0F00) >>> 8
  let VY := (s.opcode &&& 0x00F0) >>> 4
  let height := s.opcode &&& 0x000F
  let xPos := s.registers VX % VIDEO_WIDTH
  let yPos := s.registers VY % VIDEO_HEIGHT
  let s0 : Chip8 := { s with registers := setAt s.registers 0xF 0 }
  forLoop height (drawRow yPos xPos) s0

/-- EX9E - skip next instruction if key with the value of VX is pressed. -/
def OP_EX9E (s : Chip8) : Option Chip8 :=
  let VX := (s.opcode &&& 0x0F00) >>> 8
  let key := s.registers VX
  if key < KEY_COUNT then
    if s.keypad key ≠ 0 then some { s with pc := (s.pc + 2) % 65536 } else some s
  else none

/-- EXA1 - skip next instruction if key with the value of VX is not pressed. -/
def OP_EXA1 (s : Chip8) : Option Chip8 :=
  let VX := (s.opcode &&& 0x0F00) >>> 8
  let key := s.registers VX
  if key < KEY_COUNT then
    if s.keypad key = 0 then some { s with pc := (s.pc + 2) % 65536 } else some s
  else none

/-- FX07 - set VX to delay timer value. -/
def OP_FX07 (s : Chip8) : Option Chip8 :=
  let VX := (s.opcode &&& 0x0F00) >>> 8
  some { s with registers := setAt s.registers VX s.delayTimer }

/-- FX0A - await key press and store it in VX. -/
def OP_FX0A (s : Chip8) : Option Chip8 :=
  let VX := (s.opcode &&& 0x0F00) >>> 8
  if s.keypad 0 ≠ 0 then some { s with registers := setAt s.registers VX 0 }
  else if s.keypad 1 ≠ 0 then some { s with registers := setAt s.registers VX 1 }
  else if s.keypad 2 ≠ 0 then some { s with registers := setAt s.registers VX 2 }
  else if s.keypad 3 ≠ 0 then some { s with registers := setAt s.registers VX 3 }
  else if s.keypad 4 ≠ 0 then some { s with registers := setAt s.registers VX 4 }
  else if s.keypad 5 ≠ 0 then some { s with registers := setAt s.registers VX 5 }
  else if s.keypad 6 ≠ 0 then some { s with registers := setAt s.registers VX 6 }
  else if s.keypad 7 ≠ 0 then some { s with registers := setAt s.registers VX 7 }
  else if s.keypad 8 ≠ 0 then some { s with registers := setAt s.registers VX 8 }
  else if s.keypad 9 ≠ 0 then some { s with registers := setAt s.registers VX 9 }
  else if s.keypad 10 ≠ 0 then some { s with registers := setAt s.registers VX 10 }
  else if s.keypad 11 ≠ 0 then some { s with registers := setAt s.registers VX 11 }
  else if s.keypad 12 ≠ 0 then some { s with registers := setAt s.registers VX 12 }
  else if s.keypad 13 ≠ 0 then some { s with registers := setAt s.registers VX 13 }
  else if s.keypad 14 ≠ 0 then some { s with registers := setAt s.registers VX 14 }
  else if s.keypad 15 ≠ 0 then some { s with registers := setAt s.registers VX 15 }
  else some { s with pc := (s.pc + 65536 - 2) % 65536 }

/-- FX15 - set delay timer to VX. -/
def OP_FX15 (s : Chip8) : Option Chip8 :=
  let VX := (s.opcode &&& 0x0F00) >>> 8
  some { s with delayTimer := s.registers VX }

/-- FX18 - set sound timer to VX. -/
def OP_FX18 (s : Chip8) : Option Chip8 :=
  let VX := (s.opcode &&& 0x0F00) >>> 8
  some { s with soundTimer := s.registers VX }

/-- FX1E - set index register to index + VX (16-bit). -/
def OP_FX1E (s : Chip8) : Option Chip8 :=
  let VX := (s.opcode &&& 0x0F00) >>> 8
  some { s with index := (s.index + s.registers VX) % 65536 }

/-- FX29 - set index register to location of sprite for digit VX. -/
def OP_FX29 (s : Chip8) : Option Chip8 :=
  let VX := (s.opcode &&& 0x0F00) >>> 8
  let digit := s.registers VX
  some { s with index := (FONTSET_START_ADDRESS + 5 * digit) % 65536 }

/-- FX33 - store VX as decimal digits at index, index + 1, index + 2; the
writes go to `index + 2` first, then `index + 1`, then `index`. -/
def OP_FX33 (s : Chip8) : Option Chip8 :=
  let VX := (s.opcode &&& 0x0F00) >>> 8
  let value := s.registers VX
  if s.index + 2 < MEMORY_SIZE then
    let m2 := setAt s.memory (s.index + 2) (value % 10)
    let value1 := value / 10
    if s.index + 1 < MEMORY_SIZE then
      let m1 := setAt m2 (s.index + 1) (value1 % 10)
      let value2 := value1 / 10
      if s.index < MEMORY_SIZE then
        some { s with memory := setAt m1 s.index (value2 % 10) }
      else none
    else none
  else none

/-- FX55 - store registers V0 through VX in memory starting from index.  The
8-bit counter `i` runs over `0 .. VX` with `VX <= 15`, so it never wraps. -/
def OP_FX55 (s : Chip8) : Option Chip8 :=
  let VX := (s.opcode &&& 0x0F00) >>> 8
  forLoop (VX + 1) (fun i t =>
    if t.index + i < MEMORY_SIZE then
      some { t with memory := setAt t.memory (t.index + i) (t.registers i) }
    else none) s

/-- FX65 - load registers V0 through VX from memory starting from index. -/
def OP_FX65 (s : Chip8) : Option Chip8 :=
  let VX := (s.opcode &&& 0x0F00) >>> 8
  forLoop (VX + 1) (fun i t =>
    if t.index + i < MEMORY_SIZE then
      some { t with registers := setAt t.registers i (t.memory (t.index + i)) }
    else none) s

/-! ## Dispatch tables -/

/-- The member-function pointer type `Chip8Func`. -/
abbrev Chip8Func : Type := Chip8 → Option Chip8

/-- The declaration `Chip8Func t[n]{&OP_NULL}`: the braced list initialises
element 0 only; every further element is value-initialised, which for a
pointer to member is the null pointer (`none`). -/
def tableInit (n : Nat) : List (Option Chip8Func) :=
  some OP_NULL :: List.replicate (n - 1) none

/-- The call `((*this).*(t[i]))()`: reading past the end of the table, or
calling through a null pointer, is undefined behaviour. -/
def callEntry (t : List (Option Chip8Func)) (i : Nat) (s : Chip8) : Option Chip8 :=
  match t[i]? with
  | some (some f) => f s
  | _ => none

/-- `table0[0xE + 1]` after the constructor has run. -/
def table0 : List (Option Chip8Func) :=
  ((tableInit (0xE + 1)).set 0x0 (some OP_00E0)).set 0xE (some OP_00EE)

/-- `table8[0xE + 1]` after the constructor has run. -/
def table8 : List (Option Chip8Func) :=
  (((((((((tableInit (0xE + 1)).set 0x0 (some OP_8XY0)).set 0x1 (some OP_8XY1)).set 0x2
    (some OP_8XY2)).set 0x3 (some OP_8XY3)).set 0x4 (some OP_8XY4)).set 0x5
    (some OP_8XY5)).set 0x6 (some OP_8XY6)).set 0x7 (some OP_8XY7)).set 0xE (some OP_8XYE)

/-- `tableE[0xE + 1]` after the constructor has run. -/
def tableE : List (Option Chip8Func) :=
  ((tableInit (0xE + 1)).set 0x1 (some OP_EXA1)).set 0xE (some OP_EX9E)

/-- `tableF[0x65 + 1]` after the constructor has run. -/
def tableF : List (Option Chip8Func) :=
  (((((((((tableInit (0x65 + 1)).set 0x07 (some OP_FX07)).set 0x0A (some OP_FX0A)).set 0x15
    (some OP_FX15)).set 0x18 (some OP_FX18)).set 0x1E (some OP_FX1E)).set 0x29
    (some OP_FX29)).set 0x33 (some OP_FX33)).set 0x55 (some OP_FX55)).set 0x65 (some OP_FX65)

def Table0 (s : Chip8) : Option Chip8 := callEntry table0 (s.opcode &&& 0x000F) s

def Table8 (s : Chip8) : Option Chip8 := callEntry table8 (s.opcode &&& 0x000F) s

def TableE (s : Chip8) : Option Chip8 := callEntry tableE (s.opcode &&& 0x000F) s

def TableF (s : Chip8) : Option Chip8 := callEntry tableF (s.opcode &&& 0x00FF) s

/-- `table[0xF + 1]` after the constructor has run: all sixteen entries are assigned. -/
def table : List (Option Chip8Func) :=
  ((((((((((((((((tableInit (0xF + 1)).set 0x0 (some Table0)).set 0x1 (some OP_1NNN)).set 0x2
    (some OP_2NNN)).set 0x3 (some OP_3XKK)).set 0x4 (some OP_4XKK)).set 0x5
    (some OP_5XY0)).set 0x6 (some OP_6XKK)).set 0x7 (some OP_7XKK)).set 0x8
    (some Table8)).set 0x9 (some OP_9XY0)).set 0xA (some OP_ANNN)).set 0xB
    (some OP_BNNN)).set 0xC (some OP_CXKK)).set 0xD (some OP_DXYN)).set 0xE
    (some TableE)).set 0xF (some TableF)

/-! ## Construction, ROM loading, the cycle -/

/-- The constructor `Chip8()`: every member is zero-initialised, `pc` is set
to `START_ADDRESS` and the font is copied to `FONTSET_START_ADDRESS`.
`seed` is the byte stream of the freshly seeded random engine. -/
def ctor (seed : Nat → Nat) : Chip8 :=
  { keypad := fun _ => 0
    video := fun _ => 0
    memory := (List.range FONTSET_SIZE).foldl
      (fun m i => setAt m (FONTSET_START_ADDRESS + i) (fontset.getD i 0)) (fun _ => 0)
    registers := fun _ => 0
    index := 0
    pc := START_ADDRESS
    delayTimer := 0
    soundTimer := 0
    stack := fun _ => 0
    sp := 0
    opcode := 0
    randGen := seed }

/-- A byte of the file as held in the `char` buffer: on a platform whose plain
`char` is signed, bytes from `0x80` up are negative. -/
def toChar (charSigned : Bool) (b : Nat) : Int :=
  if charSigned = true ∧ 128 ≤ b then (b : Int) - 256 else (b : Int)

/-- Conversion of an integer to `uint8_t`. -/
def toU8 (n : Int) : Nat := (n % 256).toNat

/-- The body of the copy loop of `LoadROM`: `memory[START_ADDRESS + i] = buffer[i]`. -/
def copyByte (charSigned : Bool) (buffer : List Nat) (i : Nat) (s : Chip8) : Option Chip8 :=
  if START_ADDRESS + i < MEMORY_SIZE then
    some { s with
      memory := setAt s.memory (START_ADDRESS + i) (toU8 (toChar charSigned (buffer.getD i 0))) }
  else none

/-- `LoadROM`: `file` is the content of the named file, `none` when it cannot
be opened (then nothing happens); the bytes are copied to `START_ADDRESS`
onwards with no check against `MEMORY_SIZE`. -/
def LoadROM (charSigned : Bool) (file : Option (List Nat)) (s : Chip8) : Option Chip8 :=
  match file with
  | none => some s
  | some buffer =>
    let size := buffer.length
    forLoop size (copyByte charSigned buffer) s

/-- The end of `Cycle`: each timer is decremented when it is above zero. -/
def tickTimers (s2 : Chip8) : Chip8 :=
  let s3 : Chip8 :=
    if s2.delayTimer > 0 then { s2 with delayTimer := s2.delayTimer - 1 } else s2
  if s3.soundTimer > 0 then { s3 with soundTimer := s3.soundTimer - 1 } else s3

/-- The statement `((*this).*(table[(opcode & 0xF000u) >> 12u]))()` of `Cycle`. -/
def dispatch (s : Chip8) : Option Chip8 :=
  callEntry table ((s.opcode &&& 0xF000) >>> 12) s

/-- `Cycle`: fetch, advance `pc`, dispatch through `table`, tick both timers. -/
def Cycle (s : Chip8) : Option Chip8 :=
  if s.pc + 1 < MEMORY_SIZE then
    let opcode := ((s.memory s.pc <<< 8) ||| s.memory (s.pc + 1)) % 65536
    let s1 : Chip8 := { s with opcode := opcode, pc := (s.pc + 2) % 65536 }
    (dispatch s1).map tickTimers
  else none

/-! ## Sample states -/

/-- A machine whose every member is zero. -/
def zeroed : Chip8 :=
  { keypad := fun _ => 0, video := fun _ => 0, memory := fun _ => 0, registers := fun _ => 0,
    index := 0, pc := 0, delayTimer := 0, soundTimer := 0, stack := fun _ => 0, sp := 0,
    opcode := 0, randGen := fun _ => 0 }

/-- About to run `8F04` with `VF = 1` and `V0 = 1`. -/
def addIntoVF : Chip8 :=
  { zeroed with opcode := 0x8F04, registers := fun i => if i = 0xF then 1 else if i = 0 then 1 else 0 }

/-- About to run `8124` with `V1 = 200` and `V2 = 100`. -/
def addCarry : Chip8 :=
  { zeroed with opcode := 0x8124, registers := fun i => if i = 1 then 200 else if i = 2 then 100 else 0 }

/-- About to run `8F05` with `VF = 5` and `V0 = 3`. -/
def subIntoVF : Chip8 :=
  { zeroed with opcode := 0x8F05, registers := fun i => if i = 0xF then 5 else if i = 0 then 3 else 0 }

/-- About to run `80F5` with `V0 = 5` and `VF = 3`. -/
def subFromVF : Chip8 :=
  { zeroed with opcode := 0x80F5, registers := fun i => if i = 0 then 5 else if i = 0xF then 3 else 0 }

/-- About to run `8125` with `V1 = 3` and `V2 = 5`. -/
def subBorrow : Chip8 :=
  { zeroed with opcode := 0x8125, registers := fun i => if i = 1 then 3 else if i = 2 then 5 else 0 }

/-- About to fetch the word `0001` at `0x200`. -/
def fetch0001 : Chip8 :=
  { zeroed with pc := 0x200, memory := fun i => if i = 0x201 then 0x01 else 0 }

/-- About to fetch `F30A` at `0x200`, no key down. -/
def awaitNoKey : Chip8 :=
  { zeroed with
    pc := 0x200
    memory := fun i => if i = 0x200 then 0xF3 else if i = 0x201 then 0x0A else 0 }

/-- About to fetch `F30A` at `0x200`, keys 5 and 9 down. -/
def awaitKeys59 : Chip8 :=
  { awaitNoKey with keypad := fun k => if k = 5 then 1 else if k = 9 then 1 else 0 }

/-- About to run `2ABC` at depth 3 with `pc = 0x202`. -/
def callDepth3 : Chip8 :=
  { zeroed with opcode := 0x2ABC, pc := 0x202, sp := 3 }

/-- About to run `F433` with `V4 = 157` and `index = 0x300`. -/
def bcd157 : Chip8 :=
  { zeroed with opcode := 0xF433, index := 0x300, registers := fun i => if i = 4 then 157 else 0 }

/-- A six-byte program, two of its bytes above `0x7F`. -/
def sampleRom : List Nat := [0x6A, 0x05, 0xA2, 0x50, 0xD0, 0xA0]

/-- About to run `D121` with `V1 = 70`, `V2 = 40`, a blank screen and the sprite
byte `0xFF` at `index = 0x300`. -/
def drawTwice : Chip8 :=
  { zeroed with
    opcode := 0xD121
    registers := fun i => if i = 1 then 70 else if i = 2 then 40 else 0
    index := 0x300
    memory := fun a => if a = 0x300 then 0xFF else 0 }

/-- About to run `D011` with `V0 = 0`, `V1 = 32`, a blank screen and the sprite
byte `0x80` at `index = 0x300`. -/
def drawRow32 : Chip8 :=
  { zeroed with
    opcode := 0xD011
    registers := fun i => if i = 1 then 32 else 0
    index := 0x300
    memory := fun a => if a = 0x300 then 0x80 else 0 }

/-- About to run `D012` with `index = 0xFFF`: the second sprite row would be
read at address 4096. -/
def drawPastMemory : Chip8 :=
  { zeroed with opcode := 0xD012, index := 0xFFF }

/-- About to run `D011` with `V0 = 63`, `V1 = 31` and the sprite byte `0xFF`:
the second pixel of the row would be cell 2048 of the framebuffer. -/
def drawPastVideo : Chip8 :=
  { zeroed with
    opcode := 0xD011
    registers := fun i => if i = 0 then 63 else if i = 1 then 31 else 0
    index := 0x300
    memory := fun a => if a = 0x300 then 0xFF else 0 }

/-- About to run `D122` with `V1 = 70`, `V2 = 40`, the sprite bytes `0xA5`, `0x3C`
at `index = 0x300` and one cell of the target area already on. -/
def drawTwoRows : Chip8 :=
  { zeroed with
    opcode := 0xD122
    registers := fun i => if i = 1 then 70 else if i = 2 then 40 else 0
    index := 0x300
    memory := fun a => if a = 0x300 then 0xA5 else if a = 0x301 then 0x3C else 0
    video := fun k => if k = 8 * 64 + 6 then 0xFFFFFFFF else 0 }

/-- About to fetch `3407` at `0x200` with `V4 = 7`. -/
def skipTaken : Chip8 :=
  { zeroed with
    pc := 0x200
    registers := fun i => if i = 4 then 7 else 0
    memory := fun a => if a = 0x200 then 0x34 else if a = 0x201 then 0x07 else 0 }

/-- The stack pointer, the memory, the framebuffer and both timers of `s'` are
those of `s`. -/
def Untouched (s s' : Chip8) : Prop :=
  s'.sp = s.sp ∧ s'.memory = s.memory ∧ s'.video = s.video ∧
    s'.delayTimer = s.delayTimer ∧ s'.soundTimer = s.soundTimer

/-- The stack pointer, the memory and both timers of `s'` are those of `s`. -/
def UntouchedButVideo (s s' : Chip8) : Prop :=
  s'.sp = s.sp ∧ s'.memory = s.memory ∧ s'.delayTimer = s.delayTimer ∧
    s'.soundTimer = s.soundTimer

/-- The stack pointer, the framebuffer, both timers, `index` and the memory
below `index` of `s'` are those of `s`. -/
def UntouchedButMemory (s s' : Chip8) : Prop :=
  s'.sp = s.sp ∧ s'.video = s.video ∧ s'.delayTimer = s.delayTimer ∧
    s'.soundTimer = s.soundTimer ∧ s'.index = s.index ∧
    ∀ a < s.index, s'.memory a = s.memory a

/-- About to fetch `6A05` at `0x200` with `delayTimer = 5` and `soundTimer = 0`. -/
def timersRunning : Chip8 :=
  { zeroed with
    pc := 0x200
    delayTimer := 5
    memory := fun a => if a = 0x200 then 0x6A else if a = 0x201 then 0x05 else 0 }

/-- About to run `2ABC` with a full stack, `sp = 16`. -/
def callDepth16 : Chip8 :=
  { zeroed with opcode := 0x2ABC, pc := 0x202, sp := 16 }

/-- About to run `00EE` with an empty stack, `sp = 0`. -/
def returnDepth0 : Chip8 :=
  { zeroed with opcode := 0x00EE, pc := 0x202, sp := 0 }

/-- The four-byte program `A050 F033`: point `index` at the font, then store
the digits of `V0` there. -/
def fontClobberRom : List Nat := [0xA0, 0x50, 0xF0, 0x33]

/-- About to run `00EE` at depth 3. -/
def returnDepth3 : Chip8 :=
  { zeroed with opcode := 0x00EE, pc := 0x202, sp := 3 }

/-- About to fetch `F433` at `0x200` with `V4 = 157` and `index = 0x300`. -/
def bcdFetch : Chip8 :=
  { zeroed with
    pc := 0x200
    index := 0x300
    registers := fun i => if i = 4 then 157 else 0
    memory := fun a => if a = 0x200 then 0xF4 else if a = 0x201 then 0x33 else 0 }

/-- A fresh machine about to run `F329` with `V3 = 0xB`. -/
def glyphOfB : Chip8 :=
  { ctor (fun _ => 0) with opcode := 0xF329, registers := fun i => if i = 3 then 0xB else 0 }

/-- The body of the loop of `OP_FX55`: `memory[index + i] = registers[i]`. -/
def storeRegister (i : Nat) (t : Chip8) : Option Chip8 :=
  if t.index + i < MEMORY_SIZE then
    some { t with memory := setAt t.memory (t.index + i) (t.registers i) }
  else none

/-- The body of the loop of `OP_FX65`: `registers[i] = memory[index + i]`. -/
def loadRegister (i : Nat) (t : Chip8) : Option Chip8 :=
  if t.index + i < MEMORY_SIZE then
    some { t with registers := setAt t.registers i (t.memory (t.index + i)) }
  else none

/-- The loop `for (uint8_t i = 0; i <= VX; ++i) body` of `OP_FX55` and `OP_FX65`
taken literally, from counter value `i`, for at most `fuel` tests of its
condition.  The counter is 8 bits wide, so `++i` wraps from 255 to 0.
`none`: the loop is still running when the fuel is spent; `some none`: a
round hit undefined behaviour; `some (some s)`: the loop ended in `s`. -/
def loopU8 (VX : Nat) (body : Nat → Chip8 → Option Chip8) :
    Nat → Nat → Chip8 → Option (Option Chip8)
  | 0, _, _ => none
  | fuel + 1, i, s =>
    if i ≤ VX then
      match body i s with
      | none => some none
      | some t => loopU8 VX body fuel ((i + 1) % 256) t
    else some (some s)

/-- About to run `FF55` with `V[i] = i + 1` for all sixteen registers and
`index = 0x300`. -/
def storeAll : Chip8 :=
  { zeroed with opcode := 0xFF55, index := 0x300, registers := fun i => i + 1 }

/-! ## Decoding of the instruction word -/

theorem and_shl_shr (a m k : Nat) : (a &&& (m <<< k)) >>> k = (a >>> k) &&& m := by
  apply Nat.eq_of_testBit_eq
  intro i
  simp [Nat.testBit_shiftRight, Nat.testBit_and, Nat.testBit_shiftLeft]

theorem and_0F00_shr (n : Nat) : (n &&& 0x0F00) >>> 8 = n / 256 % 16 := by
  have h := and_shl_shr n 15 8
  have e : (15 : Nat) <<< 8 = 0x0F00 := by decide
  rw [e] at h
  rw [h, Nat.shiftRight_eq_div_pow]
  exact Nat.and_pow_two_sub_one_eq_mod _ 4

theorem and_00F0_shr (n : Nat) : (n &&& 0x00F0) >>> 4 = n / 16 % 16 := by
  have h := and_shl_shr n 15 4
  have e : (15 : Nat) <<< 4 = 0x00F0 := by decide
  rw [e] at h
  rw [h, Nat.shiftRight_eq_div_pow]
  exact Nat.and_pow_two_sub_one_eq_mod _ 4

theorem and_F000_shr (n : Nat) : (n &&& 0xF000) >>> 12 = n / 4096 % 16 := by
  have h := and_shl_shr n 15 12
  have e : (15 : Nat) <<< 12 = 0xF000 := by decide
  rw [e] at h
  rw [h, Nat.shiftRight_eq_div_pow]
  exact Nat.and_pow_two_sub_one_eq_mod _ 4

theorem and_000F (n : Nat) : n &&& 0x000F = n % 16 := Nat.and_pow_two_sub_one_eq_mod n 4

theorem and_00FF (n : Nat) : n &&& 0x00FF = n % 256 := Nat.and_pow_two_sub_one_eq_mod n 8

theorem and_0FFF (n : Nat) : n &&& 0x0FFF = n % 4096 := Nat.and_pow_two_sub_one_eq_mod n 12

theorem shl8_or (a b : Nat) (hb : b < 256) : (a <<< 8) ||| b = a * 256 + b := by
  have h := Nat.mul_add_lt_is_or (show b < 2 ^ 8 by simpa using hb) a
  rw [Nat.shiftLeft_eq, Nat.mul_comm, ← h]

theorem setAt_same (a : Nat → Nat) (i v : Nat) : setAt a i v i = v := by
  simp [setAt]

theorem setAt_other (a : Nat → Nat) (i v j : Nat) (h : j ≠ i) : setAt a i v j = a j := by
  simp [setAt, h]

/-! ## 8XY4 and 8XY5 -/

/-- C1 (counterexample): with X = 0xF the sum is stored into VF after the carry
and overwrites it.  `8F04` with `VF = 1`, `V0 = 1` leaves `VF = 2`, not the
carry `0` of `1 + 1`. -/
theorem OP_8XY4_carry_overwritten :
    ∃ s', OP_8XY4 addIntoVF = some s' ∧ addIntoVF.registers 0xF = 1 ∧
      addIntoVF.registers 0 = 1 ∧ s'.registers 0xF = 2 ∧
      ¬ (s'.registers 0xF = if 1 + 1 > 255 then 1 else 0) := by
  refine ⟨_, rfl, ?_, ?_, ?_, ?_⟩ <;> decide

/-- C1 (amended): for registers X, Y in 0..15 and bytes a = V[X], b = V[Y],
instruction 8XY4 leaves V[X] = (a + b) mod 256, and, when X is not 0xF, leaves
VF = 1 if a + b > 255 and VF = 0 otherwise. -/
theorem OP_8XY4_spec (s : Chip8) (X Y a b : Nat) (hX : X < 16) (hY : Y < 16)
    (hop : s.opcode = 0x8004 + 0x100 * X + 0x10 * Y)
    (ha : s.registers X = a) (hb : s.registers Y = b) (ha8 : a < 256) (hb8 : b < 256) :
    ∃ s', OP_8XY4 s = some s' ∧ s'.registers X = (a + b) % 256 ∧
      (X ≠ 0xF → s'.registers 0xF = if a + b > 255 then 1 else 0) := by
  have hVX : (s.opcode &&& 0x0F00) >>> 8 = X := by rw [and_0F00_shr, hop]; omega
  have hVY : (s.opcode &&& 0x00F0) >>> 4 = Y := by rw [and_00F0_shr, hop]; omega
  have hsum : (a + b) % 65536 = a + b := Nat.mod_eq_of_lt (by omega)
  refine ⟨_, rfl, ?_, ?_⟩
  · simp only [hVX, hVY, ha, hb, hsum, and_00FF]
    split <;> simp [setAt]
  · intro hXF
    simp only [hVX, hVY, ha, hb, hsum, and_00FF]
    split <;> simp [setAt, Ne.symm hXF]

/-- C1 (witness): `8124` with `V1 = 200`, `V2 = 100` leaves `V1 = 44` and `VF = 1`. -/
theorem OP_8XY4_spec_witness :
    ∃ s', OP_8XY4 addCarry = some s' ∧ s'.registers 1 = (200 + 100) % 256 ∧
      ((1 : Nat) ≠ 0xF → s'.registers 0xF = if 200 + 100 > 255 then 1 else 0) :=
  OP_8XY4_spec addCarry 1 2 200 100 (by decide) (by decide) (by decide) (by decide) (by decide)
    (by decide) (by decide)

/-- C2 (counterexample): 8XY5 writes VF before it subtracts.  `8F05` with
`VF = 5`, `V0 = 3` leaves `VF = 254` (neither the flag `1` nor `5 - 3`), and
`80F5` with `V0 = 5`, `VF = 3` leaves `V0 = 4`, not `5 - 3 = 2`. -/
theorem OP_8XY5_flag_register_clash :
    (∃ s', OP_8XY5 subIntoVF = some s' ∧ subIntoVF.registers 0xF = 5 ∧
      subIntoVF.registers 0 = 3 ∧ s'.registers 0xF = 254 ∧
      ¬ ((s'.registers 0xF : Int) = ((5 : Int) - 3) % 256)) ∧
    (∃ s', OP_8XY5 subFromVF = some s' ∧ subFromVF.registers 0 = 5 ∧
      subFromVF.registers 0xF = 3 ∧ s'.registers 0 = 4 ∧
      ¬ ((s'.registers 0 : Int) = ((5 : Int) - 3) % 256)) := by
  constructor <;> refine ⟨_, rfl, ?_, ?_, ?_, ?_⟩ <;> decide

/-- C2 (amended): for registers X, Y in 0..15 with X not 0xF and bytes
a = V[X], b = V[Y], instruction 8XY5 leaves VF = 1 if a > b and VF = 0
otherwise, and, when Y is not 0xF either, leaves V[X] = (a - b) mod 256. -/
theorem OP_8XY5_spec (s : Chip8) (X Y a b : Nat) (hX : X < 16) (hY : Y < 16)
    (hop : s.opcode = 0x8005 + 0x100 * X + 0x10 * Y)
    (ha : s.registers X = a) (hb : s.registers Y = b) (ha8 : a < 256) (hb8 : b < 256)
    (hXF : X ≠ 0xF) :
    ∃ s', OP_8XY5 s = some s' ∧ (s'.registers 0xF = if a > b then 1 else 0) ∧
      (Y ≠ 0xF → (s'.registers X : Int) = ((a : Int) - (b : Int)) % 256) := by
  have hVX : (s.opcode &&& 0x0F00) >>> 8 = X := by rw [and_0F00_shr, hop]; omega
  have hVY : (s.opcode &&& 0x00F0) >>> 4 = Y := by rw [and_00F0_shr, hop]; omega
  refine ⟨_, rfl, ?_, ?_⟩
  · simp only [hVX, hVY, ha, hb]
    split <;> simp [setAt, Ne.symm hXF]
  · intro hYF
    have e : (((a + 256 - b) % 256 : Nat) : Int) = ((a : Int) - (b : Int)) % 256 := by omega
    rw [← e]
    simp only [hVX, hVY, ha, hb]
    split <;> simp [setAt, hXF, hYF, ha, hb]

/-- C2 (witness): `8125` with `V1 = 3`, `V2 = 5` leaves `VF = 0` and `V1 = 254`. -/
theorem OP_8XY5_spec_witness :
    ∃ s', OP_8XY5 subBorrow = some s' ∧ (s'.registers 0xF = if 3 > 5 then 1 else 0) ∧
      ((2 : Nat) ≠ 0xF → (s'.registers 1 : Int) = (((3 : Nat) : Int) - ((5 : Nat) : Int)) % 256) :=
  OP_8XY5_spec subBorrow 1 2 3 5 (by decide) (by decide) (by decide) (by decide) (by decide)
    (by decide) (by decide) (by decide)

/-! ## Dispatch -/

theorem callEntry_none (t : List (Option Chip8Func)) (i : Nat) (s : Chip8)
    (h : (t[i]?).join.isNone = true) : callEntry t i s = none := by
  unfold callEntry
  cases ht : t[i]? with
  | none => rfl
  | some e =>
    cases e with
    | none => rfl
    | some f => simp [ht] at h

theorem table0_unassigned :
    ∀ n < 16, n ≠ 0x0 → n ≠ 0xE → (table0[n]?).join.isNone = true := by
  decide

theorem table8_unassigned :
    ∀ n < 16, (0x8 ≤ n ∧ n ≤ 0xD) ∨ n = 0xF → (table8[n]?).join.isNone = true := by
  decide

theorem tableE_unassigned :
    ∀ n < 16, n ≠ 0x0 → n ≠ 0x1 → n ≠ 0xE → (tableE[n]?).join.isNone = true := by
  decide

set_option maxRecDepth 100000 in
theorem tableF_unassigned :
    ∀ n < 256, n ≠ 0x00 → n ∉ [0x07, 0x0A, 0x15, 0x18, 0x1E, 0x29, 0x33, 0x55, 0x65] →
      (tableF[n]?).join.isNone = true := by
  decide

/-- What the tables do with every selector that the constructor leaves
unassigned: only slot 0 of `tableE` and of `tableF` still holds `OP_NULL`;
every other unassigned slot is a null pointer or lies past the end of its
table, and dispatching through it is undefined. -/
theorem dispatch_unassigned (s : Chip8) :
    (s.opcode / 4096 % 16 = 0x0 → s.opcode % 16 ≠ 0x0 → s.opcode % 16 ≠ 0xE →
      dispatch s = none) ∧
    (s.opcode / 4096 % 16 = 0x8 → (0x8 ≤ s.opcode % 16 ∧ s.opcode % 16 ≤ 0xD) ∨
      s.opcode % 16 = 0xF → dispatch s = none) ∧
    (s.opcode / 4096 % 16 = 0xE → s.opcode % 16 ≠ 0x0 → s.opcode % 16 ≠ 0x1 →
      s.opcode % 16 ≠ 0xE → dispatch s = none) ∧
    (s.opcode / 4096 % 16 = 0xE → s.opcode % 16 = 0x0 → dispatch s = some s) ∧
    (s.opcode / 4096 % 16 = 0xF → s.opcode % 256 ≠ 0x00 →
      s.opcode % 256 ∉ [0x07, 0x0A, 0x15, 0x18, 0x1E, 0x29, 0x33, 0x55, 0x65] →
      dispatch s = none) ∧
    (s.opcode / 4096 % 16 = 0xF → s.opcode % 256 = 0x00 → dispatch s = some s) := by
  refine ⟨?_, ?_, ?_, ?_, ?_, ?_⟩
  · intro hf h0 hE
    have e : dispatch s = Table0 s := by
      unfold dispatch; rw [and_F000_shr, hf]; rfl
    rw [e]; unfold Table0; rw [and_000F]
    exact callEntry_none _ _ _ (table0_unassigned _ (Nat.mod_lt _ (by decide)) h0 hE)
  · intro hf h
    have e : dispatch s = Table8 s := by
      unfold dispatch; rw [and_F000_shr, hf]; rfl
    rw [e]; unfold Table8; rw [and_000F]
    exact callEntry_none _ _ _ (table8_unassigned _ (Nat.mod_lt _ (by decide)) h)
  · intro hf h0 h1 hE
    have e : dispatch s = TableE s := by
      unfold dispatch; rw [and_F000_shr, hf]; rfl
    rw [e]; unfold TableE; rw [and_000F]
    exact callEntry_none _ _ _ (tableE_unassigned _ (Nat.mod_lt _ (by decide)) h0 h1 hE)
  · intro hf h0
    have e : dispatch s = TableE s := by
      unfold dispatch; rw [and_F000_shr, hf]; rfl
    rw [e]; unfold TableE; rw [and_000F, h0]; rfl
  · intro hf h0 h
    have e : dispatch s = TableF s := by
      unfold dispatch; rw [and_F000_shr, hf]; rfl
    rw [e]; unfold TableF; rw [and_00FF]
    exact callEntry_none _ _ _ (tableF_unassigned _ (Nat.mod_lt _ (by decide)) h0 h)
  · intro hf h0
    have e : dispatch s = TableF s := by
      unfold dispatch; rw [and_F000_shr, hf]; rfl
    rw [e]; unfold TableF; rw [and_00FF, h0]; rfl

/-- C3 (failing input): the word `0001` (family 0, low nibble 1) selects
`table0[1]`, which the constructor never assigns and the initialiser
`{&OP_NULL}` leaves null; dispatching it, and so the cycle that fetches it,
is undefined instead of a no-op. -/
theorem unassigned_0001_faults :
    fetch0001.memory 0x200 = 0x00 ∧ fetch0001.memory 0x201 = 0x01 ∧
      dispatch { fetch0001 with opcode := 0x0001 } = none ∧ Cycle fetch0001 = none := by
  refine ⟨by decide, by decide, rfl, rfl⟩

/-! ## The cycle -/

theorem tickTimers_pc (s : Chip8) : (tickTimers s).pc = s.pc := by
  unfold tickTimers; dsimp only; split <;> split <;> rfl

theorem tickTimers_registers (s : Chip8) : (tickTimers s).registers = s.registers := by
  unfold tickTimers; dsimp only; split <;> split <;> rfl

/-- The fetch of `Cycle` on a word whose bytes are `hi` and `lo`. -/
theorem Cycle_fetch (s : Chip8) (hi lo : Nat) (hpc : s.pc + 1 < 4096)
    (hhi : s.memory s.pc = hi) (hlo : s.memory (s.pc + 1) = lo)
    (hhi8 : hi < 256) (hlo8 : lo < 256) :
    Cycle s =
      (dispatch { s with opcode := hi * 256 + lo, pc := s.pc + 2 }).map tickTimers := by
  have e1 : ((s.memory s.pc <<< 8) ||| s.memory (s.pc + 1)) % 65536 = hi * 256 + lo := by
    rw [hhi, hlo, shl8_or _ _ hlo8]; omega
  have e2 : (s.pc + 2) % 65536 = s.pc + 2 := by omega
  unfold Cycle
  rw [if_pos hpc]
  simp only [e1, e2]

/-- The word `FX0A` is dispatched to `OP_FX0A`. -/
theorem dispatch_FX0A (s : Chip8) (X : Nat) (hX : X < 16)
    (hop : s.opcode = (0xF0 + X) * 256 + 0x0A) : dispatch s = OP_FX0A s := by
  have hf : s.opcode / 4096 % 16 = 0xF := by omega
  have hb : s.opcode % 256 = 0x0A := by omega
  have e : dispatch s = TableF s := by
    unfold dispatch; rw [and_F000_shr, hf]; rfl
  rw [e]; unfold TableF; rw [and_00FF, hb]; rfl

/-- C4: a cycle that fetches `FX0A` at `pc = p` leaves `pc = p` and the
registers as they were when no key is down, and otherwise stores the lowest
key that is down into V[X] (no other register changes) and leaves
`pc = p + 2`. -/
theorem Cycle_FX0A (s : Chip8) (p X : Nat) (hpc : s.pc = p) (hp : p + 1 < 4096)
    (hX : X < 16) (hhi : s.memory p = 0xF0 + X) (hlo : s.memory (p + 1) = 0x0A) :
    ((∀ k < 16, s.keypad k = 0) →
      ∃ s', Cycle s = some s' ∧ s'.pc = p ∧ s'.registers = s.registers) ∧
    (∀ k < 16, s.keypad k ≠ 0 → (∀ j < k, s.keypad j = 0) →
      ∃ s', Cycle s = some s' ∧ s'.pc = p + 2 ∧ s'.registers X = k ∧
        ∀ i, i ≠ X → s'.registers i = s.registers i) := by
  subst hpc
  have hf := Cycle_fetch s (0xF0 + X) 0x0A hp hhi hlo (by omega) (by decide)
  have hd := dispatch_FX0A { s with opcode := (0xF0 + X) * 256 + 0x0A, pc := s.pc + 2 } X hX rfl
  have hc := hf.trans (congrArg (Option.map tickTimers) hd)
  have hVX : (((0xF0 + X) * 256 + 0x0A) &&& 0x0F00) >>> 8 = X := by
    rw [and_0F00_shr]; omega
  constructor
  · intro hk
    have e : (s.pc + 2 + 65536 - 2) % 65536 = s.pc := by omega
    have key : OP_FX0A { s with opcode := (0xF0 + X) * 256 + 0x0A, pc := s.pc + 2 } =
        some { s with opcode := (0xF0 + X) * 256 + 0x0A, pc := s.pc } := by
      simp only [OP_FX0A, hk, e, Nat.reduceLT, ne_eq, not_true_eq_false, if_false]
    refine ⟨tickTimers _, hc.trans (congrArg (Option.map tickTimers) key), ?_, ?_⟩
    · rw [tickTimers_pc]
    · rw [tickTimers_registers]
  · intro k hk16 hkd hmin
    have key : OP_FX0A { s with opcode := (0xF0 + X) * 256 + 0x0A, pc := s.pc + 2 } =
        some { s with opcode := (0xF0 + X) * 256 + 0x0A, pc := s.pc + 2,
                      registers := setAt s.registers X k } := by
      interval_cases k <;> simp [OP_FX0A, hVX, hmin, hkd]
    refine ⟨tickTimers _, hc.trans (congrArg (Option.map tickTimers) key), ?_, ?_, ?_⟩
    · rw [tickTimers_pc]
    · rw [tickTimers_registers]; exact setAt_same _ _ _
    · intro i hi
      rw [tickTimers_registers]; exact setAt_other _ _ _ _ hi

/-- C4 (witness): `F30A` at `0x200`, once with no key down and once with keys 5
and 9 down. -/
theorem Cycle_FX0A_witness :
    (∃ s', Cycle awaitNoKey = some s' ∧ s'.pc = 0x200 ∧ s'.registers = awaitNoKey.registers) ∧
    (∃ s', Cycle awaitKeys59 = some s' ∧ s'.pc = 0x200 + 2 ∧ s'.registers 3 = 5 ∧
      ∀ i, i ≠ 3 → s'.registers i = awaitKeys59.registers i) :=
  ⟨(Cycle_FX0A awaitNoKey 0x200 3 rfl (by decide) (by decide) (by decide) (by decide)).1
      (by intro k _; rfl),
   (Cycle_FX0A awaitKeys59 0x200 3 rfl (by decide) (by decide) (by decide) (by decide)).2
      5 (by decide) (by decide) (by decide)⟩

/-! ## Call and return -/

/-- C5: with `sp < 16`, the handler of `2NNN` jumps to NNN and the handler of
`00EE` run after it restores `pc` to its value before the call and `sp` to
its original value. -/
theorem call_then_return (s : Chip8) (NNN : Nat) (hN : NNN < 4096)
    (hop : s.opcode = 0x2000 + NNN) (hsp : s.sp < 16) :
    ∃ s1 s2, OP_2NNN s = some s1 ∧ OP_00EE s1 = some s2 ∧ s1.pc = NNN ∧
      s2.pc = s.pc ∧ s2.sp = s.sp := by
  have hadr : s.opcode &&& 0x0FFF = NNN := by rw [and_0FFF, hop]; omega
  have hsp1 : ((s.sp + 1) % 256 + 255) % 256 = s.sp := by omega
  have h1 : OP_2NNN s =
      some { s with stack := setAt s.stack s.sp s.pc, sp := (s.sp + 1) % 256, pc := NNN } := by
    unfold OP_2NNN
    simp only [hadr]
    exact if_pos hsp
  have h2 : OP_00EE { s with stack := setAt s.stack s.sp s.pc, sp := (s.sp + 1) % 256, pc := NNN } =
      some { s with stack := setAt s.stack s.sp s.pc, sp := s.sp,
                    pc := setAt s.stack s.sp s.pc s.sp } := by
    unfold OP_00EE
    simp only [hsp1]
    exact if_pos hsp
  exact ⟨_, _, h1, h2, rfl, setAt_same _ _ _, rfl⟩

/-- C5 (witness): `2ABC` at depth 3 with `pc = 0x202`, then `00EE`. -/
theorem call_then_return_witness :
    ∃ s1 s2, OP_2NNN callDepth3 = some s1 ∧ OP_00EE s1 = some s2 ∧ s1.pc = 0xABC ∧
      s2.pc = callDepth3.pc ∧ s2.sp = callDepth3.sp :=
  call_then_return callDepth3 0xABC (by decide) (by decide) (by decide)

/-! ## Binary-coded decimal -/

/-- C6: with `index + 2 < 4096` and a byte v in V[X], `FX33` stores `v / 100`,
`(v / 10) mod 10` and `v mod 10` at `index`, `index + 1`, `index + 2`; each is a
decimal digit and together they spell v; no other memory byte, no register
and not `index` changes. -/
theorem OP_FX33_spec (s : Chip8) (X v : Nat) (hX : X < 16)
    (hop : s.opcode = 0xF033 + 0x100 * X) (hv : s.registers X = v) (hv8 : v < 256)
    (hidx : s.index + 2 < 4096) :
    ∃ s', OP_FX33 s = some s' ∧
      s'.memory s.index = v / 100 ∧ s'.memory (s.index + 1) = v / 10 % 10 ∧
      s'.memory (s.index + 2) = v % 10 ∧
      s'.memory s.index ≤ 9 ∧ s'.memory (s.index + 1) ≤ 9 ∧ s'.memory (s.index + 2) ≤ 9 ∧
      100 * s'.memory s.index + 10 * s'.memory (s.index + 1) + s'.memory (s.index + 2) = v ∧
      (∀ a, a ≠ s.index → a ≠ s.index + 1 → a ≠ s.index + 2 → s'.memory a = s.memory a) ∧
      s'.registers = s.registers ∧ s'.index = s.index := by
  have hVX : (s.opcode &&& 0x0F00) >>> 8 = X := by rw [and_0F00_shr, hop]; omega
  have h : OP_FX33 s = some
      { s with
        memory := setAt (setAt (setAt s.memory (s.index + 2) (v % 10)) (s.index + 1) (v / 10 % 10))
          s.index (v / 10 / 10 % 10) } := by
    unfold OP_FX33
    simp only [hVX, hv]
    rw [if_pos hidx, if_pos (show s.index + 1 < 4096 by omega),
      if_pos (show s.index < 4096 by omega)]
  have m0 : setAt (setAt (setAt s.memory (s.index + 2) (v % 10)) (s.index + 1) (v / 10 % 10))
      s.index (v / 10 / 10 % 10) s.index = v / 100 := by
    rw [setAt_same]; omega
  have m1 : setAt (setAt (setAt s.memory (s.index + 2) (v % 10)) (s.index + 1) (v / 10 % 10))
      s.index (v / 10 / 10 % 10) (s.index + 1) = v / 10 % 10 := by
    rw [setAt_other _ _ _ _ (by omega), setAt_same]
  have m2 : setAt (setAt (setAt s.memory (s.index + 2) (v % 10)) (s.index + 1) (v / 10 % 10))
      s.index (v / 10 / 10 % 10) (s.index + 2) = v % 10 := by
    rw [setAt_other _ _ _ _ (by omega), setAt_other _ _ _ _ (by omega), setAt_same]
  refine ⟨_, h, m0, m1, m2, ?_, ?_, ?_, ?_, ?_, rfl, rfl⟩
  · show setAt _ _ _ _ ≤ 9
    rw [m0]; omega
  · show setAt _ _ _ _ ≤ 9
    rw [m1]; omega
  · show setAt _ _ _ _ ≤ 9
    rw [m2]; omega
  · show 100 * setAt _ _ _ _ + 10 * setAt _ _ _ _ + setAt _ _ _ _ = v
    rw [m0, m1, m2]; omega
  · intro a h0 h1 h2
    show setAt _ _ _ a = s.memory a
    rw [setAt_other _ _ _ _ h0, setAt_other _ _ _ _ h1, setAt_other _ _ _ _ h2]

/-- C6 (witness): `V4 = 157` is stored as the digits 1, 5, 7. -/
theorem OP_FX33_spec_witness :
    ∃ s', OP_FX33 bcd157 = some s' ∧
      s'.memory 0x300 = 1 ∧ s'.memory 0x301 = 5 ∧ s'.memory 0x302 = 7 := by
  obtain ⟨s', h, h0, h1, h2, _⟩ :=
    OP_FX33_spec bcd157 4 157 (by decide) (by decide) (by decide) (by decide) (by decide)
  exact ⟨s', h, h0, h1, h2⟩

/-! ## ROM loading -/

theorem toU8_toChar (cs : Bool) (b : Nat) (hb : b < 256) : toU8 (toChar cs b) = b := by
  unfold toU8 toChar
  split <;> omega

/-- The copy loop after `n` rounds, as long as it stays inside `memory`. -/
theorem copy_loop (cs : Bool) (buffer : List Nat) (s : Chip8) (n : Nat)
    (hn : 0x200 + n ≤ 4096) :
    forLoop n (copyByte cs buffer) s = some
      { s with
        memory := fun a =>
          if 0x200 ≤ a ∧ a < 0x200 + n then toU8 (toChar cs (buffer.getD (a - 0x200) 0))
          else s.memory a } := by
  induction n with
  | zero =>
    have e : (fun a => if 0x200 ≤ a ∧ a < 0x200 + 0 then
        toU8 (toChar cs (buffer.getD (a - 0x200) 0)) else s.memory a) = s.memory := by
      funext a
      exact if_neg (by omega)
    rw [e]; rfl
  | succ n ih =>
    have hlt : 0x200 + n < 4096 := by omega
    show (forLoop n (copyByte cs buffer) s).bind (copyByte cs buffer n) = _
    rw [ih (by omega)]
    show copyByte cs buffer n _ = _
    unfold copyByte
    rw [if_pos hlt]
    congr 2
    funext a
    unfold setAt
    dsimp only
    by_cases h1 : a = 0x200 + n
    · subst h1
      rw [if_pos rfl, if_pos (by omega), Nat.add_sub_cancel_left]
    · rw [if_neg h1]
      by_cases h2 : 0x200 ≤ a ∧ a < 0x200 + n
      · rw [if_pos h2, if_pos (by omega)]
      · rw [if_neg h2, if_neg (by omega)]

/-- C7: loading a ROM of at most `4096 - 0x200` bytes puts byte `i` of the ROM
at `memory[0x200 + i]`, unchanged, whatever its value in 0..255 and whether
plain `char` is signed or not. -/
theorem LoadROM_roundtrip (cs : Bool) (rom : List Nat) (s : Chip8)
    (hbytes : ∀ b ∈ rom, b < 256) (hlen : rom.length ≤ 4096 - 0x200) :
    ∃ s', LoadROM cs (some rom) s = some s' ∧
      ∀ (i : Nat) (h : i < rom.length), s'.memory (0x200 + i) = rom[i] := by
  refine ⟨_, copy_loop cs rom s rom.length (by omega), ?_⟩
  intro i h
  show (if 0x200 ≤ 0x200 + i ∧ 0x200 + i < 0x200 + rom.length then
    toU8 (toChar cs (rom.getD (0x200 + i - 0x200) 0)) else s.memory (0x200 + i)) = rom[i]
  rw [if_pos (by omega), Nat.add_sub_cancel_left, List.getD_eq_getElem _ _ h]
  exact toU8_toChar cs _ (hbytes _ (List.getElem_mem _))

/-- C7 (witness): the six-byte sample program, with signed `char`. -/
theorem LoadROM_roundtrip_witness :
    ∃ s', LoadROM true (some sampleRom) zeroed = some s' ∧
      ∀ (i : Nat) (h : i < sampleRom.length), s'.memory (0x200 + i) = sampleRom[i] :=
  LoadROM_roundtrip true sampleRom zeroed (by decide) (by decide)

/-- C8: loading a ROM of N bytes, N at most `4096 - 0x200`, changes no memory
byte outside `0x200 .. 0x200 + N` and no other member of the machine. -/
theorem LoadROM_frame (cs : Bool) (rom : List Nat) (s : Chip8)
    (hlen : rom.length ≤ 4096 - 0x200) :
    ∃ s', LoadROM cs (some rom) s = some s' ∧
      (∀ a, a < 0x200 ∨ 0x200 + rom.length ≤ a → s'.memory a = s.memory a) ∧
      s'.registers = s.registers ∧ s'.index = s.index ∧ s'.pc = s.pc ∧
      s'.stack = s.stack ∧ s'.sp = s.sp ∧ s'.delayTimer = s.delayTimer ∧
      s'.soundTimer = s.soundTimer ∧ s'.video = s.video ∧ s'.keypad = s.keypad ∧
      s'.opcode = s.opcode ∧ s'.randGen = s.randGen := by
  refine ⟨_, copy_loop cs rom s rom.length (by omega), ?_, rfl, rfl, rfl, rfl, rfl, rfl, rfl,
    rfl, rfl, rfl, rfl⟩
  intro a ha
  show (if 0x200 ≤ a ∧ a < 0x200 + rom.length then
    toU8 (toChar cs (rom.getD (a - 0x200) 0)) else s.memory a) = s.memory a
  exact if_neg (by omega)

/-- C8 (witness): the six-byte sample program loaded into a fresh machine. -/
theorem LoadROM_frame_witness :
    ∃ s', LoadROM false (some sampleRom) (ctor (fun _ => 0)) = some s' ∧
      (∀ a, a < 0x200 ∨ 0x200 + sampleRom.length ≤ a →
        s'.memory a = (ctor (fun _ => 0)).memory a) ∧
      s'.registers = (ctor (fun _ => 0)).registers ∧ s'.index = (ctor (fun _ => 0)).index ∧
      s'.pc = (ctor (fun _ => 0)).pc ∧ s'.stack = (ctor (fun _ => 0)).stack ∧
      s'.sp = (ctor (fun _ => 0)).sp ∧ s'.delayTimer = (ctor (fun _ => 0)).delayTimer ∧
      s'.soundTimer = (ctor (fun _ => 0)).soundTimer ∧ s'.video = (ctor (fun _ => 0)).video ∧
      s'.keypad = (ctor (fun _ => 0)).keypad ∧ s'.opcode = (ctor (fun _ => 0)).opcode ∧
      s'.randGen = (ctor (fun _ => 0)).randGen :=
  LoadROM_frame false sampleRom (ctor (fun _ => 0)) (by decide)

/-! ## Sprite drawing -/

theorem setAt_setAt (a : Nat → Nat) (i v w : Nat) : setAt (setAt a i v) i w = setAt a i w := by
  funext j
  unfold setAt
  by_cases h : j = i
  · rw [if_pos h, if_pos h]
  · rw [if_neg h, if_neg h, if_neg h]

theorem drawPixel_bit (B y x row col : Nat) (s : Chip8) (hb : B &&& (0x80 >>> col) ≠ 0)
    (hlt : (y + row) * 64 + (x + col) < 2048) :
    drawPixel B y x row col s = some
      { s with
        registers :=
          if s.video ((y + row) * 64 + (x + col)) = 0xFFFFFFFF then setAt s.registers 0xF 1
          else s.registers
        video := setAt s.video ((y + row) * 64 + (x + col))
          (s.video ((y + row) * 64 + (x + col)) ^^^ 0xFFFFFFFF) } := by
  unfold drawPixel
  simp only [VIDEO_WIDTH, VIDEO_HEIGHT, Nat.reduceMul]
  rw [if_pos hb, if_pos hlt]
  split <;> rfl

theorem drawPixel_nobit (B y x row col : Nat) (s : Chip8) (hb : ¬ B &&& (0x80 >>> col) ≠ 0) :
    drawPixel B y x row col s = some s := by
  unfold drawPixel
  simp only
  rw [if_neg hb]

theorem drawPixel_loop (B y x row : Nat) (s : Chip8) (n : Nat)
    (hin : ∀ c < n, B &&& (0x80 >>> c) ≠ 0 → (y + row) * 64 + (x + c) < 2048) :
    ∃ t, forLoop n (drawPixel B y x row) s = some t ∧
      t = { s with video := t.video, registers := t.registers } ∧
      (∀ c < n, B &&& (0x80 >>> c) ≠ 0 →
        t.video ((y + row) * 64 + (x + c)) = s.video ((y + row) * 64 + (x + c)) ^^^ 0xFFFFFFFF) ∧
      (∀ k, (∀ c < n, B &&& (0x80 >>> c) ≠ 0 → k ≠ (y + row) * 64 + (x + c)) →
        t.video k = s.video k) ∧
      ((∃ c < n, B &&& (0x80 >>> c) ≠ 0 ∧ s.video ((y + row) * 64 + (x + c)) = 0xFFFFFFFF) →
        t.registers = setAt s.registers 0xF 1) ∧
      ((∀ c < n, B &&& (0x80 >>> c) ≠ 0 → s.video ((y + row) * 64 + (x + c)) ≠ 0xFFFFFFFF) →
        t.registers = s.registers) := by
  induction n with
  | zero =>
    refine ⟨s, rfl, rfl, ?_, ?_, ?_, ?_⟩
    · intro c hc; omega
    · intro k _; rfl
    · rintro ⟨c, hc, _⟩; omega
    · intro _; rfl
  | succ n ih =>
    obtain ⟨t, ht, hfr, hset, hoth, hcol, hnocol⟩ :=
      ih (fun c hc hb => hin c (Nat.lt_succ_of_lt hc) hb)
    have hstep : forLoop (n + 1) (drawPixel B y x row) s = drawPixel B y x row n t := by
      show (forLoop n (drawPixel B y x row) s).bind (drawPixel B y x row n) = _
      rw [ht]; rfl
    by_cases hb : B &&& (0x80 >>> n) ≠ 0
    · have hlt := hin n (Nat.lt_succ_self n) hb
      have hvn : t.video ((y + row) * 64 + (x + n)) = s.video ((y + row) * 64 + (x + n)) :=
        hoth _ (fun c hc _ => by omega)
      refine ⟨_, hstep.trans (drawPixel_bit B y x row n t hb hlt), ?_, ?_, ?_, ?_, ?_⟩
      · have hz := congrArg (fun z : Chip8 =>
          ({ z with
             registers :=
               if t.video ((y + row) * 64 + (x + n)) = 0xFFFFFFFF then setAt t.registers 0xF 1
               else t.registers
             video := setAt t.video ((y + row) * 64 + (x + n))
               (t.video ((y + row) * 64 + (x + n)) ^^^ 0xFFFFFFFF) } : Chip8)) hfr
        exact hz
      · intro c hc hbc
        show setAt _ _ _ _ = _
        by_cases hcn : c = n
        · subst hcn
          rw [setAt_same, hvn]
        · rw [setAt_other _ _ _ _ (by omega)]
          exact hset c (by omega) hbc
      · intro k hk
        show setAt _ _ _ _ = _
        rw [setAt_other _ _ _ _ (hk n (Nat.lt_succ_self n) hb)]
        exact hoth k (fun c hc hbc => hk c (Nat.lt_succ_of_lt hc) hbc)
      · rintro ⟨c, hc, hbc, hF⟩
        show (if _ then _ else _) = _
        by_cases hprev : ∃ c < n, B &&& (0x80 >>> c) ≠ 0 ∧
            s.video ((y + row) * 64 + (x + c)) = 0xFFFFFFFF
        · rw [hcol hprev, setAt_setAt]
          split <;> rfl
        · have hcn : c = n := by
            by_contra hne
            exact hprev ⟨c, by omega, hbc, hF⟩
          subst hcn
          rw [if_pos (hvn.trans hF), hnocol (fun c' hc' hb' hF' => hprev ⟨c', hc', hb', hF'⟩)]
      · intro hno
        show (if _ then _ else _) = _
        rw [if_neg (by rw [hvn]; exact hno n (Nat.lt_succ_self n) hb)]
        exact hnocol (fun c hc hbc => hno c (Nat.lt_succ_of_lt hc) hbc)
    · refine ⟨t, hstep.trans (drawPixel_nobit B y x row n t hb), hfr, ?_, ?_, ?_, ?_⟩
      · intro c hc hbc
        have hcn : c ≠ n := fun h => hb (h ▸ hbc)
        exact hset c (by omega) hbc
      · intro k hk
        exact hoth k (fun c hc hbc => hk c (Nat.lt_succ_of_lt hc) hbc)
      · rintro ⟨c, hc, hbc, hF⟩
        have hcn : c ≠ n := fun h => hb (h ▸ hbc)
        exact hcol ⟨c, by omega, hbc, hF⟩
      · intro hno
        exact hnocol (fun c hc hbc => hno c (Nat.lt_succ_of_lt hc) hbc)

theorem drawRow_loop (y x : Nat) (s : Chip8) (n : Nat)
    (hmem : ∀ r < n, s.index + r < 4096)
    (hin : ∀ r < n, ∀ c < 8, s.memory (s.index + r) &&& (0x80 >>> c) ≠ 0 →
      (y + r) * 64 + (x + c) < 2048) :
    ∃ t, forLoop n (drawRow y x) s = some t ∧
      t = { s with video := t.video, registers := t.registers } ∧
      (∀ r < n, ∀ c < 8, s.memory (s.index + r) &&& (0x80 >>> c) ≠ 0 →
        t.video ((y + r) * 64 + (x + c)) = s.video ((y + r) * 64 + (x + c)) ^^^ 0xFFFFFFFF) ∧
      (∀ k, (∀ r < n, ∀ c < 8, s.memory (s.index + r) &&& (0x80 >>> c) ≠ 0 →
        k ≠ (y + r) * 64 + (x + c)) → t.video k = s.video k) ∧
      ((∃ r < n, ∃ c < 8, s.memory (s.index + r) &&& (0x80 >>> c) ≠ 0 ∧
        s.video ((y + r) * 64 + (x + c)) = 0xFFFFFFFF) → t.registers = setAt s.registers 0xF 1) ∧
      ((∀ r < n, ∀ c < 8, s.memory (s.index + r) &&& (0x80 >>> c) ≠ 0 →
        s.video ((y + r) * 64 + (x + c)) ≠ 0xFFFFFFFF) → t.registers = s.registers) := by
  induction n with
  | zero =>
    refine ⟨s, rfl, rfl, ?_, ?_, ?_, ?_⟩
    · intro r hr; omega
    · intro k _; rfl
    · rintro ⟨r, hr, _⟩; omega
    · intro _; rfl
  | succ n ih =>
    obtain ⟨t, ht, hfr, hset, hoth, hcol, hnocol⟩ :=
      ih (fun r hr => hmem r (Nat.lt_succ_of_lt hr))
        (fun r hr c hc hb => hin r (Nat.lt_succ_of_lt hr) c hc hb)
    have hidx : t.index = s.index := by
      have hz := congrArg Chip8.index hfr
      exact hz
    have hmemeq : t.memory = s.memory := by
      have hz := congrArg Chip8.memory hfr
      exact hz
    have hstep : forLoop (n + 1) (drawRow y x) s = drawRow y x n t := by
      show (forLoop n (drawRow y x) s).bind (drawRow y x n) = _
      rw [ht]; rfl
    have hrow : drawRow y x n t = forLoop 8 (drawPixel (s.memory (s.index + n)) y x n) t := by
      unfold drawRow
      simp only [hidx, hmemeq]
      rw [if_pos (hmem n (Nat.lt_succ_self n))]
    obtain ⟨u, hu, hufr, huset, huoth, hucol, hunocol⟩ :=
      drawPixel_loop (s.memory (s.index + n)) y x n t 8
        (fun c hc hb => hin n (Nat.lt_succ_self n) c hc hb)
    have htv : ∀ c < 8, t.video ((y + n) * 64 + (x + c)) = s.video ((y + n) * 64 + (x + c)) :=
      fun c hc => hoth _ (fun r hr c' hc' _ => by omega)
    refine ⟨u, hstep.trans (hrow.trans hu), ?_, ?_, ?_, ?_, ?_⟩
    · have hz := congrArg (fun z : Chip8 =>
        ({ z with video := u.video, registers := u.registers } : Chip8)) hfr
      exact hufr.trans hz
    · intro r hr c hc hb
      by_cases hrn : r = n
      · subst hrn
        rw [huset c hc hb, htv c hc]
      · rw [huoth _ (fun c' hc' _ => by omega)]
        exact hset r (by omega) c hc hb
    · intro k hk
      rw [huoth k (fun c hc hb => hk n (Nat.lt_succ_self n) c hc hb)]
      exact hoth k (fun r hr c hc hb => hk r (Nat.lt_succ_of_lt hr) c hc hb)
    · rintro ⟨r, hr, c, hc, hb, hF⟩
      by_cases hprev : ∃ r < n, ∃ c < 8, s.memory (s.index + r) &&& (0x80 >>> c) ≠ 0 ∧
          s.video ((y + r) * 64 + (x + c)) = 0xFFFFFFFF
      · by_cases hhere : ∃ c < 8, s.memory (s.index + n) &&& (0x80 >>> c) ≠ 0 ∧
            t.video ((y + n) * 64 + (x + c)) = 0xFFFFFFFF
        · rw [hucol hhere, hcol hprev, setAt_setAt]
        · rw [hunocol (fun c' hc' hb' hF' => hhere ⟨c', hc', hb', hF'⟩), hcol hprev]
      · have hrn : r = n := by
          by_contra hne
          exact hprev ⟨r, by omega, c, hc, hb, hF⟩
        subst hrn
        rw [hucol ⟨c, hc, hb, (htv c hc).trans hF⟩,
          hnocol (fun r' hr' c' hc' hb' hF' => hprev ⟨r', hr', c', hc', hb', hF'⟩)]
    · intro hno
      rw [hunocol (fun c hc hb => by rw [htv c hc]; exact hno n (Nat.lt_succ_self n) c hc hb)]
      exact hnocol (fun r hr c hc hb => hno r (Nat.lt_succ_of_lt hr) c hc hb)

/-- What `OP_DXYN` does whenever every sprite byte it reads lies inside
`memory` and every framebuffer cell it writes lies inside `video`: the cells
under set sprite bits are flipped, nothing else in the framebuffer changes,
and VF ends as 1 when a flipped cell was fully on, as 0 otherwise. -/
theorem OP_DXYN_draw (s : Chip8) (X Y N : Nat) (hX : X < 16) (hY : Y < 16) (hN : N < 16)
    (hop : s.opcode = 0xD000 + 0x100 * X + 0x10 * Y + N)
    (hmem : ∀ r < N, s.index + r < 4096)
    (hin : ∀ r < N, ∀ c < 8, s.memory (s.index + r) &&& (0x80 >>> c) ≠ 0 →
      (s.registers Y % 32 + r) * 64 + (s.registers X % 64 + c) < 2048) :
    ∃ t, OP_DXYN s = some t ∧
      t = { s with video := t.video, registers := t.registers } ∧
      (∀ r < N, ∀ c < 8, s.memory (s.index + r) &&& (0x80 >>> c) ≠ 0 →
        t.video ((s.registers Y % 32 + r) * 64 + (s.registers X % 64 + c)) =
          s.video ((s.registers Y % 32 + r) * 64 + (s.registers X % 64 + c)) ^^^ 0xFFFFFFFF) ∧
      (∀ k, (∀ r < N, ∀ c < 8, s.memory (s.index + r) &&& (0x80 >>> c) ≠ 0 →
        k ≠ (s.registers Y % 32 + r) * 64 + (s.registers X % 64 + c)) → t.video k = s.video k) ∧
      ((∃ r < N, ∃ c < 8, s.memory (s.index + r) &&& (0x80 >>> c) ≠ 0 ∧
        s.video ((s.registers Y % 32 + r) * 64 + (s.registers X % 64 + c)) = 0xFFFFFFFF) →
        t.registers = setAt s.registers 0xF 1) ∧
      ((∀ r < N, ∀ c < 8, s.memory (s.index + r) &&& (0x80 >>> c) ≠ 0 →
        s.video ((s.registers Y % 32 + r) * 64 + (s.registers X % 64 + c)) ≠ 0xFFFFFFFF) →
        t.registers = setAt s.registers 0xF 0) := by
  have hVX : (s.opcode &&& 0x0F00) >>> 8 = X := by rw [and_0F00_shr, hop]; omega
  have hVY : (s.opcode &&& 0x00F0) >>> 4 = Y := by rw [and_00F0_shr, hop]; omega
  have hNib : s.opcode &&& 0x000F = N := by rw [and_000F, hop]; omega
  obtain ⟨t, ht, hfr, hset, hoth, hcol, hnocol⟩ :=
    drawRow_loop (s.registers Y % 32) (s.registers X % 64)
      { s with registers := setAt s.registers 0xF 0 } N hmem hin
  have hrun : OP_DXYN s = some t := by
    unfold OP_DXYN
    simp only [hVX, hVY, hNib, VIDEO_WIDTH, VIDEO_HEIGHT]
    exact ht
  refine ⟨t, hrun, hfr, hset, hoth, ?_, hnocol⟩
  intro h
  rw [hcol h]
  exact setAt_setAt _ _ _ _

theorem sprite_FF_bits : ∀ c < 8, (0xFF : Nat) &&& (0x80 >>> c) ≠ 0 := by decide

/-- C9: when the 8 cells of row `V[Y] mod 32` from column `V[X] mod 64` (at most
56) are off, the sprite byte at `index` is `0xFF` and neither X nor Y is 0xF,
a first `DXY1` turns those 8 cells on with VF = 0, a second one turns them
off again with VF = 1, and no other cell changes in either draw. -/
theorem OP_DXY1_twice (s : Chip8) (X Y : Nat) (hX : X < 16) (hY : Y < 16)
    (hXF : X ≠ 0xF) (hYF : Y ≠ 0xF) (hop : s.opcode = 0xD001 + 0x100 * X + 0x10 * Y)
    (hx : s.registers X % 64 ≤ 56) (hidx : s.index < 4096) (hspr : s.memory s.index = 0xFF)
    (hoff : ∀ c < 8, s.video (s.registers Y % 32 * 64 + (s.registers X % 64 + c)) = 0) :
    ∃ s1 s2, OP_DXYN s = some s1 ∧ OP_DXYN s1 = some s2 ∧
      (∀ c < 8, s1.video (s.registers Y % 32 * 64 + (s.registers X % 64 + c)) = 0xFFFFFFFF) ∧
      s1.registers 0xF = 0 ∧
      (∀ c < 8, s2.video (s.registers Y % 32 * 64 + (s.registers X % 64 + c)) = 0) ∧
      s2.registers 0xF = 1 ∧
      (∀ k, (∀ c < 8, k ≠ s.registers Y % 32 * 64 + (s.registers X % 64 + c)) →
        s1.video k = s.video k ∧ s2.video k = s.video k) := by
  have hy : s.registers Y % 32 < 32 := Nat.mod_lt _ (by decide)
  obtain ⟨s1, h1, hfr1, hset1, hoth1, _, hnocol1⟩ :=
    OP_DXYN_draw s X Y 1 hX hY (by decide) (by omega) (fun r hr => by omega)
      (fun r hr c hc _ => by omega)
  have hbit : ∀ c < 8, s.memory (s.index + 0) &&& (0x80 >>> c) ≠ 0 := by
    intro c hc
    rw [Nat.add_zero, hspr]
    exact sprite_FF_bits c hc
  have hreg1 : s1.registers = setAt s.registers 0xF 0 := by
    apply hnocol1
    intro r hr c hc _
    have hr0 : r = 0 := by omega
    subst hr0
    rw [Nat.add_zero, hoff c hc]
    decide
  have hop1 : s1.opcode = s.opcode := by
    have hz := congrArg Chip8.opcode hfr1
    exact hz
  have hidx1 : s1.index = s.index := by
    have hz := congrArg Chip8.index hfr1
    exact hz
  have hmem1 : s1.memory = s.memory := by
    have hz := congrArg Chip8.memory hfr1
    exact hz
  have hX1 : s1.registers X = s.registers X := by rw [hreg1, setAt_other _ _ _ _ hXF]
  have hY1 : s1.registers Y = s.registers Y := by rw [hreg1, setAt_other _ _ _ _ hYF]
  have hon : ∀ c < 8, s1.video (s.registers Y % 32 * 64 + (s.registers X % 64 + c)) =
      0xFFFFFFFF := by
    intro c hc
    have h := hset1 0 (by decide) c hc (hbit c hc)
    rw [Nat.add_zero] at h
    rw [h, hoff c hc]
    rfl
  obtain ⟨s2, h2, _, hset2, hoth2, hcol2, _⟩ :=
    OP_DXYN_draw s1 X Y 1 hX hY (by decide) (by omega) (fun r hr => by omega)
      (fun r hr c hc _ => by rw [hX1, hY1]; omega)
  rw [hX1, hY1, hidx1, hmem1] at hset2 hoth2 hcol2
  refine ⟨s1, s2, h1, h2, hon, ?_, ?_, ?_, ?_⟩
  · rw [hreg1, setAt_same]
  · intro c hc
    have h := hset2 0 (by decide) c hc (hbit c hc)
    rw [Nat.add_zero] at h
    rw [h, hon c hc]
    rfl
  · rw [hcol2 ⟨0, by decide, 0, by decide, hbit 0 (by decide), by
      have h := hon 0 (by decide)
      rw [Nat.add_zero]
      exact h⟩, setAt_same]
  · intro k hk
    have e1 : s1.video k = s.video k := by
      apply hoth1
      intro r hr c hc _
      have hr0 : r = 0 := by omega
      subst hr0
      rw [Nat.add_zero]
      exact hk c hc
    have e2 : s2.video k = s1.video k := by
      apply hoth2
      intro r hr c hc _
      have hr0 : r = 0 := by omega
      subst hr0
      rw [Nat.add_zero]
      exact hk c hc
    exact ⟨e1, e2.trans e1⟩

/-- C9 (witness): `D121` drawn twice at column 6 of row 8. -/
theorem OP_DXY1_twice_witness :
    ∃ s1 s2, OP_DXYN drawTwice = some s1 ∧ OP_DXYN s1 = some s2 ∧
      (∀ c < 8, s1.video (40 % 32 * 64 + (70 % 64 + c)) = 0xFFFFFFFF) ∧
      s1.registers 0xF = 0 ∧
      (∀ c < 8, s2.video (40 % 32 * 64 + (70 % 64 + c)) = 0) ∧
      s2.registers 0xF = 1 ∧
      (∀ k, (∀ c < 8, k ≠ 40 % 32 * 64 + (70 % 64 + c)) →
        s1.video k = drawTwice.video k ∧ s2.video k = drawTwice.video k) :=
  OP_DXY1_twice drawTwice 1 2 (by decide) (by decide) (by decide) (by decide) (by decide)
    (by decide) (by decide) (by decide) (fun _ _ => rfl)

/-- C10 (counterexample): with `V[Y] = 32` the sprite row lands on row
`32 mod 32 = 0`, not on row `32 mod 64 = 32`, which is no row of the 64 by 32
grid; and a draw whose sprite bytes or target cells lie outside the arrays
yields no state at all. -/
theorem OP_DXYN_row_mod_32 :
    (∃ s', OP_DXYN drawRow32 = some s' ∧ drawRow32.registers 0 = 0 ∧
      drawRow32.registers 1 = 32 ∧ drawRow32.memory drawRow32.index &&& (0x80 >>> 0) ≠ 0 ∧
      s'.video ((32 % 32 + 0) * 64 + (0 % 64 + 0)) =
        drawRow32.video ((32 % 32 + 0) * 64 + (0 % 64 + 0)) ^^^ 0xFFFFFFFF ∧
      ¬ (s'.video ((32 % 64 + 0) * 64 + (0 % 64 + 0)) =
        drawRow32.video ((32 % 64 + 0) * 64 + (0 % 64 + 0)) ^^^ 0xFFFFFFFF)) ∧
    OP_DXYN drawPastMemory = none ∧ OP_DXYN drawPastVideo = none := by
  refine ⟨⟨_, rfl, ?_, ?_, ?_, ?_, ?_⟩, rfl, rfl⟩ <;> decide

/-- C10 (amended): for a `DXYN` whose sprite bytes lie inside `memory` and whose
set sprite bits fall on cells inside `video`, sprite row r is XORed onto the
8 cells starting at column `V[X] mod 64` of row `V[Y] mod 32 + r`: bit
`0x80 >> c` of `memory[index + r]` flips the cell at column `V[X] mod 64 + c`
of that row and a clear bit leaves it as it was. -/
theorem OP_DXYN_rows (s : Chip8) (X Y N : Nat) (hX : X < 16) (hY : Y < 16) (hN : N < 16)
    (hop : s.opcode = 0xD000 + 0x100 * X + 0x10 * Y + N)
    (hmem : ∀ r < N, s.index + r < 4096)
    (hin : ∀ r < N, ∀ c < 8, s.memory (s.index + r) &&& (0x80 >>> c) ≠ 0 →
      (s.registers Y % 32 + r) * 64 + (s.registers X % 64 + c) < 2048) :
    ∃ s', OP_DXYN s = some s' ∧ ∀ r < N, ∀ c < 8,
      s'.video ((s.registers Y % 32 + r) * 64 + (s.registers X % 64 + c)) =
        if s.memory (s.index + r) &&& (0x80 >>> c) ≠ 0 then
          s.video ((s.registers Y % 32 + r) * 64 + (s.registers X % 64 + c)) ^^^ 0xFFFFFFFF
        else s.video ((s.registers Y % 32 + r) * 64 + (s.registers X % 64 + c)) := by
  obtain ⟨t, ht, _, hset, hoth, _, _⟩ := OP_DXYN_draw s X Y N hX hY hN hop hmem hin
  refine ⟨t, ht, ?_⟩
  intro r hr c hc
  by_cases hb : s.memory (s.index + r) &&& (0x80 >>> c) ≠ 0
  · rw [if_pos hb]
    exact hset r hr c hc hb
  · rw [if_neg hb]
    apply hoth
    intro r' _ c' hc' hb' heq
    have hrr : r' = r := by omega
    subst hrr
    have hcc : c' = c := by omega
    subst hcc
    exact hb hb'

/-- C10 (witness): the two-row sprite `0xA5`, `0x3C` at column 6 of row 8. -/
theorem OP_DXYN_rows_witness :
    ∃ s', OP_DXYN drawTwoRows = some s' ∧ ∀ r < 2, ∀ c < 8,
      s'.video ((40 % 32 + r) * 64 + (70 % 64 + c)) =
        if drawTwoRows.memory (0x300 + r) &&& (0x80 >>> c) ≠ 0 then
          drawTwoRows.video ((40 % 32 + r) * 64 + (70 % 64 + c)) ^^^ 0xFFFFFFFF
        else drawTwoRows.video ((40 % 32 + r) * 64 + (70 % 64 + c)) :=
  OP_DXYN_rows drawTwoRows 1 2 2 (by decide) (by decide) (by decide) (by decide) (by decide)
    (by decide)

/-! ## Skip on equal -/

/-- The word `3XKK` is dispatched to `OP_3XKK`. -/
theorem dispatch_3XKK (s : Chip8) (X KK : Nat) (hX : X < 16) (hKK : KK < 256)
    (hop : s.opcode = (0x30 + X) * 256 + KK) : dispatch s = OP_3XKK s := by
  have hf : s.opcode / 4096 % 16 = 0x3 := by omega
  unfold dispatch; rw [and_F000_shr, hf]; rfl

/-- C11: a cycle that fetches `3XKK` at `pc = p` (high byte at `p`, low byte at
`p + 1`) leaves `pc = p + 4` when V[X] = KK and `pc = p + 2` otherwise, and
changes no register. -/
theorem Cycle_3XKK (s : Chip8) (p X KK : Nat) (hpc : s.pc = p) (hp : p + 1 < 4096)
    (hX : X < 16) (hKK : KK < 256) (hhi : s.memory p = 0x30 + X)
    (hlo : s.memory (p + 1) = KK) :
    ∃ s', Cycle s = some s' ∧ s'.pc = (if s.registers X = KK then p + 4 else p + 2) ∧
      s'.registers = s.registers := by
  subst hpc
  have hf := Cycle_fetch s (0x30 + X) KK hp hhi hlo (by omega) hKK
  have hd := dispatch_3XKK { s with opcode := (0x30 + X) * 256 + KK, pc := s.pc + 2 } X KK
    hX hKK rfl
  have hc := hf.trans (congrArg (Option.map tickTimers) hd)
  have hVX : (((0x30 + X) * 256 + KK) &&& 0x0F00) >>> 8 = X := by
    rw [and_0F00_shr]; omega
  have hbyte : ((0x30 + X) * 256 + KK) &&& 0x00FF = KK := by
    rw [and_00FF]; omega
  have e4 : (s.pc + 2 + 2) % 65536 = s.pc + 4 := by omega
  by_cases hreg : s.registers X = KK
  · have key : OP_3XKK { s with opcode := (0x30 + X) * 256 + KK, pc := s.pc + 2 } =
        some { s with opcode := (0x30 + X) * 256 + KK, pc := s.pc + 4 } := by
      unfold OP_3XKK
      simp only [hVX, hbyte, e4]
      rw [if_pos hreg]
    refine ⟨tickTimers _, hc.trans (congrArg (Option.map tickTimers) key), ?_, ?_⟩
    · rw [tickTimers_pc, if_pos hreg]
    · rw [tickTimers_registers]
  · have key : OP_3XKK { s with opcode := (0x30 + X) * 256 + KK, pc := s.pc + 2 } =
        some { s with opcode := (0x30 + X) * 256 + KK, pc := s.pc + 2 } := by
      unfold OP_3XKK
      simp only [hVX, hbyte]
      rw [if_neg hreg]
    refine ⟨tickTimers _, hc.trans (congrArg (Option.map tickTimers) key), ?_, ?_⟩
    · rw [tickTimers_pc, if_neg hreg]
    · rw [tickTimers_registers]

/-- C11 (witness): `3407` at `0x200` with `V4 = 7` skips to `0x204`. -/
theorem Cycle_3XKK_witness :
    ∃ s', Cycle skipTaken = some s' ∧
      s'.pc = (if skipTaken.registers 4 = 7 then 0x200 + 4 else 0x200 + 2) ∧
      s'.registers = skipTaken.registers :=
  Cycle_3XKK skipTaken 0x200 4 7 rfl (by decide) (by decide) (by decide) (by decide) (by decide)

/-! ## Clearing the display -/

/-- C13: after `00E0` every one of the 64 * 32 framebuffer cells is 0, running
`00E0` again yields the same state, and no member other than `video` changes. -/
theorem OP_00E0_spec (s : Chip8) :
    ∃ s', OP_00E0 s = some s' ∧ (∀ k < 64 * 32, s'.video k = 0) ∧
      OP_00E0 s' = some s' ∧ s' = { s with video := s'.video } := by
  refine ⟨_, rfl, ?_, ?_, rfl⟩
  · intro k hk
    show (if k < VIDEO_WIDTH * VIDEO_HEIGHT then 0 else s.video k) = 0
    exact if_pos hk
  · unfold OP_00E0
    congr 2
    funext k
    by_cases hk : k < VIDEO_WIDTH * VIDEO_HEIGHT
    · simp only [if_pos hk]
    · simp only [if_neg hk]

/-! ## What each handler leaves alone -/

theorem OP_NULL_untouched (s s' : Chip8) (h : OP_NULL s = some s') : Untouched s s' := by
  unfold OP_NULL at h
  cases h
  exact ⟨rfl, rfl, rfl, rfl, rfl⟩

theorem OP_1NNN_untouched (s s' : Chip8) (h : OP_1NNN s = some s') : Untouched s s' := by
  unfold OP_1NNN at h
  simp only at h
  cases h
  exact ⟨rfl, rfl, rfl, rfl, rfl⟩

theorem OP_3XKK_untouched (s s' : Chip8) (h : OP_3XKK s = some s') : Untouched s s' := by
  unfold OP_3XKK at h
  simp only at h
  split_ifs at h <;> cases h <;> exact ⟨rfl, rfl, rfl, rfl, rfl⟩

theorem OP_4XKK_untouched (s s' : Chip8) (h : OP_4XKK s = some s') : Untouched s s' := by
  unfold OP_4XKK at h
  simp only at h
  split_ifs at h <;> cases h <;> exact ⟨rfl, rfl, rfl, rfl, rfl⟩

theorem OP_5XY0_untouched (s s' : Chip8) (h : OP_5XY0 s = some s') : Untouched s s' := by
  unfold OP_5XY0 at h
  simp only at h
  split_ifs at h <;> cases h <;> exact ⟨rfl, rfl, rfl, rfl, rfl⟩

theorem OP_6XKK_untouched (s s' : Chip8) (h : OP_6XKK s = some s') : Untouched s s' := by
  unfold OP_6XKK at h
  simp only at h
  cases h
  exact ⟨rfl, rfl, rfl, rfl, rfl⟩

theorem OP_7XKK_untouched (s s' : Chip8) (h : OP_7XKK s = some s') : Untouched s s' := by
  unfold OP_7XKK at h
  simp only at h
  cases h
  exact ⟨rfl, rfl, rfl, rfl, rfl⟩

theorem OP_8XY0_untouched (s s' : Chip8) (h : OP_8XY0 s = some s') : Untouched s s' := by
  unfold OP_8XY0 at h
  simp only at h
  cases h
  exact ⟨rfl, rfl, rfl, rfl, rfl⟩

theorem OP_8XY1_untouched (s s' : Chip8) (h : OP_8XY1 s = some s') : Untouched s s' := by
  unfold OP_8XY1 at h
  simp only at h
  cases h
  exact ⟨rfl, rfl, rfl, rfl, rfl⟩

theorem OP_8XY2_untouched (s s' : Chip8) (h : OP_8XY2 s = some s') : Untouched s s' := by
  unfold OP_8XY2 at h
  simp only at h
  cases h
  exact ⟨rfl, rfl, rfl, rfl, rfl⟩

theorem OP_8XY3_untouched (s s' : Chip8) (h : OP_8XY3 s = some s') : Untouched s s' := by
  unfold OP_8XY3 at h
  simp only at h
  cases h
  exact ⟨rfl, rfl, rfl, rfl, rfl⟩

theorem OP_8XY4_untouched (s s' : Chip8) (h : OP_8XY4 s = some s') : Untouched s s' := by
  unfold OP_8XY4 at h
  simp only at h
  split_ifs at h <;> cases h <;> exact ⟨rfl, rfl, rfl, rfl, rfl⟩

theorem OP_8XY5_untouched (s s' : Chip8) (h : OP_8XY5 s = some s') : Untouched s s' := by
  unfold OP_8XY5 at h
  simp only at h
  split_ifs at h <;> cases h <;> exact ⟨rfl, rfl, rfl, rfl, rfl⟩

theorem OP_8XY6_untouched (s s' : Chip8) (h : OP_8XY6 s = some s') : Untouched s s' := by
  unfold OP_8XY6 at h
  simp only at h
  cases h
  exact ⟨rfl, rfl, rfl, rfl, rfl⟩

theorem OP_8XY7_untouched (s s' : Chip8) (h : OP_8XY7 s = some s') : Untouched s s' := by
  unfold OP_8XY7 at h
  simp only at h
  split_ifs at h <;> cases h <;> exact ⟨rfl, rfl, rfl, rfl, rfl⟩

theorem OP_8XYE_untouched (s s' : Chip8) (h : OP_8XYE s = some s') : Untouched s s' := by
  unfold OP_8XYE at h
  simp only at h
  cases h
  exact ⟨rfl, rfl, rfl, rfl, rfl⟩

theorem OP_9XY0_untouched (s s' : Chip8) (h : OP_9XY0 s = some s') : Untouched s s' := by
  unfold OP_9XY0 at h
  simp only at h
  split_ifs at h <;> cases h <;> exact ⟨rfl, rfl, rfl, rfl, rfl⟩

theorem OP_ANNN_untouched (s s' : Chip8) (h : OP_ANNN s = some s') : Untouched s s' := by
  unfold OP_ANNN at h
  simp only at h
  cases h
  exact ⟨rfl, rfl, rfl, rfl, rfl⟩

theorem OP_BNNN_untouched (s s' : Chip8) (h : OP_BNNN s = some s') : Untouched s s' := by
  unfold OP_BNNN at h
  simp only at h
  cases h
  exact ⟨rfl, rfl, rfl, rfl, rfl⟩

theorem OP_CXKK_untouched (s s' : Chip8) (h : OP_CXKK s = some s') : Untouched s s' := by
  unfold OP_CXKK at h
  simp only at h
  cases h
  exact ⟨rfl, rfl, rfl, rfl, rfl⟩

theorem OP_EX9E_untouched (s s' : Chip8) (h : OP_EX9E s = some s') : Untouched s s' := by
  unfold OP_EX9E at h
  simp only at h
  split_ifs at h <;> cases h <;> exact ⟨rfl, rfl, rfl, rfl, rfl⟩

theorem OP_EXA1_untouched (s s' : Chip8) (h : OP_EXA1 s = some s') : Untouched s s' := by
  unfold OP_EXA1 at h
  simp only at h
  split_ifs at h <;> cases h <;> exact ⟨rfl, rfl, rfl, rfl, rfl⟩

theorem OP_FX07_untouched (s s' : Chip8) (h : OP_FX07 s = some s') : Untouched s s' := by
  unfold OP_FX07 at h
  simp only at h
  cases h
  exact ⟨rfl, rfl, rfl, rfl, rfl⟩

theorem OP_FX0A_untouched (s s' : Chip8) (h : OP_FX0A s = some s') : Untouched s s' := by
  unfold OP_FX0A at h
  dsimp only at h
  by_cases h0 : s.keypad 0 ≠ 0
  · rw [if_pos h0] at h; cases h; exact ⟨rfl, rfl, rfl, rfl, rfl⟩
  rw [if_neg h0] at h
  by_cases h1 : s.keypad 1 ≠ 0
  · rw [if_pos h1] at h; cases h; exact ⟨rfl, rfl, rfl, rfl, rfl⟩
  rw [if_neg h1] at h
  by_cases h2 : s.keypad 2 ≠ 0
  · rw [if_pos h2] at h; cases h; exact ⟨rfl, rfl, rfl, rfl, rfl⟩
  rw [if_neg h2] at h
  by_cases h3 : s.keypad 3 ≠ 0
  · rw [if_pos h3] at h; cases h; exact ⟨rfl, rfl, rfl, rfl, rfl⟩
  rw [if_neg h3] at h
  by_cases h4 : s.keypad 4 ≠ 0
  · rw [if_pos h4] at h; cases h; exact ⟨rfl, rfl, rfl, rfl, rfl⟩
  rw [if_neg h4] at h
  by_cases h5 : s.keypad 5 ≠ 0
  · rw [if_pos h5] at h; cases h; exact ⟨rfl, rfl, rfl, rfl, rfl⟩
  rw [if_neg h5] at h
  by_cases h6 : s.keypad 6 ≠ 0
  · rw [if_pos h6] at h; cases h; exact ⟨rfl, rfl, rfl, rfl, rfl⟩
  rw [if_neg h6] at h
  by_cases h7 : s.keypad 7 ≠ 0
  · rw [if_pos h7] at h; cases h; exact ⟨rfl, rfl, rfl, rfl, rfl⟩
  rw [if_neg h7] at h
  by_cases h8 : s.keypad 8 ≠ 0
  · rw [if_pos h8] at h; cases h; exact ⟨rfl, rfl, rfl, rfl, rfl⟩
  rw [if_neg h8] at h
  by_cases h9 : s.keypad 9 ≠ 0
  · rw [if_pos h9] at h; cases h; exact ⟨rfl, rfl, rfl, rfl, rfl⟩
  rw [if_neg h9] at h
  by_cases h10 : s.keypad 10 ≠ 0
  · rw [if_pos h10] at h; cases h; exact ⟨rfl, rfl, rfl, rfl, rfl⟩
  rw [if_neg h10] at h
  by_cases h11 : s.keypad 11 ≠ 0
  · rw [if_pos h11] at h; cases h; exact ⟨rfl, rfl, rfl, rfl, rfl⟩
  rw [if_neg h11] at h
  by_cases h12 : s.keypad 12 ≠ 0
  · rw [if_pos h12] at h; cases h; exact ⟨rfl, rfl, rfl, rfl, rfl⟩
  rw [if_neg h12] at h
  by_cases h13 : s.keypad 13 ≠ 0
  · rw [if_pos h13] at h; cases h; exact ⟨rfl, rfl, rfl, rfl, rfl⟩
  rw [if_neg h13] at h
  by_cases h14 : s.keypad 14 ≠ 0
  · rw [if_pos h14] at h; cases h; exact ⟨rfl, rfl, rfl, rfl, rfl⟩
  rw [if_neg h14] at h
  by_cases h15 : s.keypad 15 ≠ 0
  · rw [if_pos h15] at h; cases h; exact ⟨rfl, rfl, rfl, rfl, rfl⟩
  rw [if_neg h15] at h
  cases h
  exact ⟨rfl, rfl, rfl, rfl, rfl⟩

theorem OP_FX1E_untouched (s s' : Chip8) (h : OP_FX1E s = some s') : Untouched s s' := by
  unfold OP_FX1E at h
  simp only at h
  cases h
  exact ⟨rfl, rfl, rfl, rfl, rfl⟩

theorem OP_FX29_untouched (s s' : Chip8) (h : OP_FX29 s = some s') : Untouched s s' := by
  unfold OP_FX29 at h
  simp only at h
  cases h
  exact ⟨rfl, rfl, rfl, rfl, rfl⟩

/-- A relation that is reflexive, transitive and established by every round
of a loop holds between the start and the end of the loop. -/
theorem forLoop_rel {σ : Type} (R : σ → σ → Prop) (hrefl : ∀ a, R a a)
    (htrans : ∀ a b c, R a b → R b c → R a c) (body : Nat → σ → Option σ)
    (hb : ∀ i t t', body i t = some t' → R t t') (n : Nat) (s s' : σ)
    (h : forLoop n body s = some s') : R s s' := by
  induction n generalizing s' with
  | zero =>
    have h0 : some s = some s' := h
    cases h0
    exact hrefl s
  | succ n ih =>
    have hs : (forLoop n body s).bind (body n) = some s' := h
    cases hm : forLoop n body s with
    | none => rw [hm] at hs; cases hs
    | some t =>
      rw [hm] at hs
      exact htrans s t s' (ih t hm) (hb n t s' hs)

theorem Untouched_refl (s : Chip8) : Untouched s s := ⟨rfl, rfl, rfl, rfl, rfl⟩

theorem Untouched_trans (a b c : Chip8) (h1 : Untouched a b) (h2 : Untouched b c) :
    Untouched a c :=
  ⟨h2.1.trans h1.1, h2.2.1.trans h1.2.1, h2.2.2.1.trans h1.2.2.1,
    h2.2.2.2.1.trans h1.2.2.2.1, h2.2.2.2.2.trans h1.2.2.2.2⟩

theorem UntouchedButVideo_refl (s : Chip8) : UntouchedButVideo s s := ⟨rfl, rfl, rfl, rfl⟩

theorem UntouchedButVideo_trans (a b c : Chip8) (h1 : UntouchedButVideo a b)
    (h2 : UntouchedButVideo b c) : UntouchedButVideo a c :=
  ⟨h2.1.trans h1.1, h2.2.1.trans h1.2.1, h2.2.2.1.trans h1.2.2.1, h2.2.2.2.trans h1.2.2.2⟩

theorem UntouchedButMemory_refl (s : Chip8) : UntouchedButMemory s s :=
  ⟨rfl, rfl, rfl, rfl, rfl, fun _ _ => rfl⟩

theorem UntouchedButMemory_trans (a b c : Chip8) (h1 : UntouchedButMemory a b)
    (h2 : UntouchedButMemory b c) : UntouchedButMemory a c :=
  ⟨h2.1.trans h1.1, h2.2.1.trans h1.2.1, h2.2.2.1.trans h1.2.2.1,
    h2.2.2.2.1.trans h1.2.2.2.1, h2.2.2.2.2.1.trans h1.2.2.2.2.1,
    fun x hx => (h2.2.2.2.2.2 x (by rw [h1.2.2.2.2.1]; exact hx)).trans (h1.2.2.2.2.2 x hx)⟩

theorem OP_FX65_untouched (s s' : Chip8) (h : OP_FX65 s = some s') : Untouched s s' := by
  unfold OP_FX65 at h
  refine forLoop_rel Untouched Untouched_refl Untouched_trans _ ?_ _ s s' h
  intro i t t' ht
  simp only at ht
  split_ifs at ht
  cases ht
  exact ⟨rfl, rfl, rfl, rfl, rfl⟩

theorem OP_FX55_effect (s s' : Chip8) (h : OP_FX55 s = some s') : UntouchedButMemory s s' := by
  unfold OP_FX55 at h
  refine forLoop_rel UntouchedButMemory UntouchedButMemory_refl UntouchedButMemory_trans _ ?_ _
    s s' h
  intro i t t' ht
  simp only at ht
  split_ifs at ht
  cases ht
  exact ⟨rfl, rfl, rfl, rfl, rfl, fun a ha => setAt_other _ _ _ _ (by omega)⟩

theorem OP_FX33_effect (s s' : Chip8) (h : OP_FX33 s = some s') : UntouchedButMemory s s' := by
  unfold OP_FX33 at h
  simp only at h
  split_ifs at h
  cases h
  refine ⟨rfl, rfl, rfl, rfl, rfl, fun a ha => ?_⟩
  show setAt _ _ _ a = s.memory a
  rw [setAt_other _ _ _ _ (by omega), setAt_other _ _ _ _ (by omega),
    setAt_other _ _ _ _ (by omega)]

theorem drawPixel_effect (B y x row col : Nat) (s s' : Chip8)
    (h : drawPixel B y x row col s = some s') : UntouchedButVideo s s' := by
  unfold drawPixel at h
  simp only at h
  split_ifs at h <;> cases h <;> exact ⟨rfl, rfl, rfl, rfl⟩

theorem drawRow_effect (y x row : Nat) (s s' : Chip8)
    (h : drawRow y x row s = some s') : UntouchedButVideo s s' := by
  unfold drawRow at h
  simp only at h
  split_ifs at h
  exact forLoop_rel UntouchedButVideo UntouchedButVideo_refl UntouchedButVideo_trans _
    (fun i t t' ht => drawPixel_effect _ _ _ _ _ t t' ht) _ s s' h

theorem OP_DXYN_effect (s s' : Chip8) (h : OP_DXYN s = some s') : UntouchedButVideo s s' := by
  unfold OP_DXYN at h
  simp only at h
  have hr := forLoop_rel UntouchedButVideo UntouchedButVideo_refl UntouchedButVideo_trans _
    (fun i t t' ht => drawRow_effect _ _ _ t t' ht) _ _ s' h
  exact hr

theorem OP_00E0_effect (s s' : Chip8) (h : OP_00E0 s = some s') : UntouchedButVideo s s' := by
  unfold OP_00E0 at h
  cases h
  exact ⟨rfl, rfl, rfl, rfl⟩

theorem OP_00EE_effect (s s' : Chip8) (h : OP_00EE s = some s') :
    s'.sp = (s.sp + 255) % 256 ∧ s'.sp < 16 ∧ s'.memory = s.memory ∧ s'.video = s.video ∧
      s'.delayTimer = s.delayTimer ∧ s'.soundTimer = s.soundTimer := by
  unfold OP_00EE at h
  simp only at h
  split_ifs at h with hlt
  cases h
  exact ⟨rfl, hlt, rfl, rfl, rfl, rfl⟩

theorem OP_2NNN_effect (s s' : Chip8) (h : OP_2NNN s = some s') :
    s.sp < 16 ∧ s'.sp = s.sp + 1 ∧ s'.memory = s.memory ∧ s'.video = s.video ∧
      s'.delayTimer = s.delayTimer ∧ s'.soundTimer = s.soundTimer := by
  unfold OP_2NNN at h
  simp only at h
  split_ifs at h with hlt
  cases h
  have hlt16 : s.sp < 16 := hlt
  refine ⟨hlt16, ?_, rfl, rfl, rfl, rfl⟩
  show (s.sp + 1) % 256 = s.sp + 1
  omega

theorem OP_FX15_effect (s s' : Chip8) (h : OP_FX15 s = some s') :
    s'.sp = s.sp ∧ s'.memory = s.memory ∧ s'.video = s.video ∧
      s'.soundTimer = s.soundTimer := by
  unfold OP_FX15 at h
  cases h
  exact ⟨rfl, rfl, rfl, rfl⟩

theorem OP_FX18_effect (s s' : Chip8) (h : OP_FX18 s = some s') :
    s'.sp = s.sp ∧ s'.memory = s.memory ∧ s'.video = s.video ∧
      s'.delayTimer = s.delayTimer := by
  unfold OP_FX18 at h
  cases h
  exact ⟨rfl, rfl, rfl, rfl⟩

/-! ## What a dispatched instruction leaves alone -/

theorem Table0_effect (s s' : Chip8) (h : Table0 s = some s') :
    (s.opcode % 16 = 0x0 ∧ OP_00E0 s = some s') ∨
      (s.opcode % 16 = 0xE ∧ OP_00EE s = some s') := by
  unfold Table0 at h
  rw [and_000F] at h
  have hlt : s.opcode % 16 < 16 := Nat.mod_lt _ (by decide)
  generalize s.opcode % 16 = n at h hlt ⊢
  interval_cases n
  · exact Or.inl ⟨rfl, h⟩
  · cases (h : (none : Option Chip8) = some s')
  · cases (h : (none : Option Chip8) = some s')
  · cases (h : (none : Option Chip8) = some s')
  · cases (h : (none : Option Chip8) = some s')
  · cases (h : (none : Option Chip8) = some s')
  · cases (h : (none : Option Chip8) = some s')
  · cases (h : (none : Option Chip8) = some s')
  · cases (h : (none : Option Chip8) = some s')
  · cases (h : (none : Option Chip8) = some s')
  · cases (h : (none : Option Chip8) = some s')
  · cases (h : (none : Option Chip8) = some s')
  · cases (h : (none : Option Chip8) = some s')
  · cases (h : (none : Option Chip8) = some s')
  · exact Or.inr ⟨rfl, h⟩
  · cases (h : (none : Option Chip8) = some s')

theorem Table8_effect (s s' : Chip8) (h : Table8 s = some s') : Untouched s s' := by
  unfold Table8 at h
  rw [and_000F] at h
  have hlt : s.opcode % 16 < 16 := Nat.mod_lt _ (by decide)
  generalize s.opcode % 16 = n at h hlt
  interval_cases n
  · exact OP_8XY0_untouched s s' h
  · exact OP_8XY1_untouched s s' h
  · exact OP_8XY2_untouched s s' h
  · exact OP_8XY3_untouched s s' h
  · exact OP_8XY4_untouched s s' h
  · exact OP_8XY5_untouched s s' h
  · exact OP_8XY6_untouched s s' h
  · exact OP_8XY7_untouched s s' h
  · cases (h : (none : Option Chip8) = some s')
  · cases (h : (none : Option Chip8) = some s')
  · cases (h : (none : Option Chip8) = some s')
  · cases (h : (none : Option Chip8) = some s')
  · cases (h : (none : Option Chip8) = some s')
  · cases (h : (none : Option Chip8) = some s')
  · exact OP_8XYE_untouched s s' h
  · cases (h : (none : Option Chip8) = some s')

theorem TableE_effect (s s' : Chip8) (h : TableE s = some s') : Untouched s s' := by
  unfold TableE at h
  rw [and_000F] at h
  have hlt : s.opcode % 16 < 16 := Nat.mod_lt _ (by decide)
  generalize s.opcode % 16 = n at h hlt
  interval_cases n
  · exact OP_NULL_untouched s s' h
  · exact OP_EXA1_untouched s s' h
  · cases (h : (none : Option Chip8) = some s')
  · cases (h : (none : Option Chip8) = some s')
  · cases (h : (none : Option Chip8) = some s')
  · cases (h : (none : Option Chip8) = some s')
  · cases (h : (none : Option Chip8) = some s')
  · cases (h : (none : Option Chip8) = some s')
  · cases (h : (none : Option Chip8) = some s')
  · cases (h : (none : Option Chip8) = some s')
  · cases (h : (none : Option Chip8) = some s')
  · cases (h : (none : Option Chip8) = some s')
  · cases (h : (none : Option Chip8) = some s')
  · cases (h : (none : Option Chip8) = some s')
  · exact OP_EX9E_untouched s s' h
  · cases (h : (none : Option Chip8) = some s')

theorem TableF_effect (s s' : Chip8) (h : TableF s = some s') :
    Untouched s s' ∨ (s.opcode % 256 = 0x15 ∧ OP_FX15 s = some s') ∨
      (s.opcode % 256 = 0x18 ∧ OP_FX18 s = some s') ∨
      (s.opcode % 256 = 0x33 ∧ OP_FX33 s = some s') ∨
      (s.opcode % 256 = 0x55 ∧ OP_FX55 s = some s') := by
  unfold TableF at h
  rw [and_00FF] at h
  have hlt : s.opcode % 256 < 256 := Nat.mod_lt _ (by decide)
  generalize s.opcode % 256 = b at h hlt ⊢
  by_cases h0 : b = 0x00
  · subst h0
    exact Or.inl (OP_NULL_untouched s s' h)
  by_cases hmem : b ∈ [0x07, 0x0A, 0x15, 0x18, 0x1E, 0x29, 0x33, 0x55, 0x65]
  · simp only [List.mem_cons, List.mem_singleton, List.not_mem_nil, or_false] at hmem
    rcases hmem with hb | hb | hb | hb | hb | hb | hb | hb | hb <;> subst hb
    · exact Or.inl (OP_FX07_untouched s s' h)
    · exact Or.inl (OP_FX0A_untouched s s' h)
    · exact Or.inr (Or.inl ⟨rfl, h⟩)
    · exact Or.inr (Or.inr (Or.inl ⟨rfl, h⟩))
    · exact Or.inl (OP_FX1E_untouched s s' h)
    · exact Or.inl (OP_FX29_untouched s s' h)
    · exact Or.inr (Or.inr (Or.inr (Or.inl ⟨rfl, h⟩)))
    · exact Or.inr (Or.inr (Or.inr (Or.inr ⟨rfl, h⟩)))
    · exact Or.inl (OP_FX65_untouched s s' h)
  · rw [callEntry_none _ _ _ (tableF_unassigned b hlt h0 hmem)] at h
    cases h

/-- Every dispatched instruction that ends in a state leaves the stack
pointer, the memory, the framebuffer and both timers alone, unless it is one
of the eight instructions listed. -/
theorem dispatch_effect (s s' : Chip8) (h : dispatch s = some s') :
    Untouched s s' ∨
      (s.opcode / 4096 % 16 = 0x0 ∧ s.opcode % 16 = 0x0 ∧ OP_00E0 s = some s') ∨
      (s.opcode / 4096 % 16 = 0x0 ∧ s.opcode % 16 = 0xE ∧ OP_00EE s = some s') ∨
      (s.opcode / 4096 % 16 = 0x2 ∧ OP_2NNN s = some s') ∨
      (s.opcode / 4096 % 16 = 0xD ∧ OP_DXYN s = some s') ∨
      (s.opcode / 4096 % 16 = 0xF ∧ s.opcode % 256 = 0x15 ∧ OP_FX15 s = some s') ∨
      (s.opcode / 4096 % 16 = 0xF ∧ s.opcode % 256 = 0x18 ∧ OP_FX18 s = some s') ∨
      (s.opcode / 4096 % 16 = 0xF ∧ s.opcode % 256 = 0x33 ∧ OP_FX33 s = some s') ∨
      (s.opcode / 4096 % 16 = 0xF ∧ s.opcode % 256 = 0x55 ∧ OP_FX55 s = some s') := by
  unfold dispatch at h
  rw [and_F000_shr] at h
  have hlt : s.opcode / 4096 % 16 < 16 := Nat.mod_lt _ (by decide)
  generalize s.opcode / 4096 % 16 = f at h hlt ⊢
  interval_cases f
  · rcases Table0_effect s s' h with ⟨hn, h0⟩ | ⟨hn, h0⟩
    · exact Or.inr (Or.inl ⟨rfl, hn, h0⟩)
    · exact Or.inr (Or.inr (Or.inl ⟨rfl, hn, h0⟩))
  · exact Or.inl (OP_1NNN_untouched s s' h)
  · exact Or.inr (Or.inr (Or.inr (Or.inl ⟨rfl, h⟩)))
  · exact Or.inl (OP_3XKK_untouched s s' h)
  · exact Or.inl (OP_4XKK_untouched s s' h)
  · exact Or.inl (OP_5XY0_untouched s s' h)
  · exact Or.inl (OP_6XKK_untouched s s' h)
  · exact Or.inl (OP_7XKK_untouched s s' h)
  · exact Or.inl (Table8_effect s s' h)
  · exact Or.inl (OP_9XY0_untouched s s' h)
  · exact Or.inl (OP_ANNN_untouched s s' h)
  · exact Or.inl (OP_BNNN_untouched s s' h)
  · exact Or.inl (OP_CXKK_untouched s s' h)
  · exact Or.inr (Or.inr (Or.inr (Or.inr (Or.inl ⟨rfl, h⟩))))
  · exact Or.inl (TableE_effect s s' h)
  · rcases TableF_effect s s' h with hu | ⟨hb, h0⟩ | ⟨hb, h0⟩ | ⟨hb, h0⟩ | ⟨hb, h0⟩
    · exact Or.inl hu
    · exact Or.inr (Or.inr (Or.inr (Or.inr (Or.inr (Or.inl ⟨rfl, hb, h0⟩)))))
    · exact Or.inr (Or.inr (Or.inr (Or.inr (Or.inr (Or.inr (Or.inl ⟨rfl, hb, h0⟩))))))
    · exact Or.inr (Or.inr (Or.inr (Or.inr (Or.inr (Or.inr (Or.inr (Or.inl ⟨rfl, hb, h0⟩)))))))
    · exact Or.inr (Or.inr (Or.inr (Or.inr (Or.inr (Or.inr (Or.inr (Or.inr ⟨rfl, hb, h0⟩)))))))

/-! ## Timers -/

theorem tickTimers_delayTimer (s : Chip8) :
    (tickTimers s).delayTimer = if s.delayTimer > 0 then s.delayTimer - 1 else 0 := by
  unfold tickTimers
  dsimp only
  by_cases hd : s.delayTimer > 0
  · rw [if_pos hd, if_pos hd]
    split <;> rfl
  · rw [if_neg hd, if_neg hd]
    split <;> (show s.delayTimer = 0; omega)

theorem tickTimers_soundTimer (s : Chip8) :
    (tickTimers s).soundTimer = if s.soundTimer > 0 then s.soundTimer - 1 else 0 := by
  unfold tickTimers
  dsimp only
  by_cases hd : s.delayTimer > 0
  · rw [if_pos hd]
    by_cases hs : s.soundTimer > 0
    · rw [if_pos hs, if_pos hs]
    · rw [if_neg hs, if_neg hs]
      show s.soundTimer = 0
      omega
  · rw [if_neg hd]
    by_cases hs : s.soundTimer > 0
    · rw [if_pos hs, if_pos hs]
    · rw [if_neg hs, if_neg hs]
      omega

theorem tickTimers_sp (s : Chip8) : (tickTimers s).sp = s.sp := by
  unfold tickTimers; dsimp only; split <;> split <;> rfl

theorem tickTimers_memory (s : Chip8) : (tickTimers s).memory = s.memory := by
  unfold tickTimers; dsimp only; split <;> split <;> rfl

/-- A cycle that ends in a state ran its fetch inside `memory` and its
dispatched instruction to the end. -/
theorem Cycle_some (s s' : Chip8) (h : Cycle s = some s') :
    s.pc + 1 < 4096 ∧ ∃ s2, dispatch
      { s with
        opcode := ((s.memory s.pc <<< 8) ||| s.memory (s.pc + 1)) % 65536
        pc := (s.pc + 2) % 65536 } = some s2 ∧ s' = tickTimers s2 := by
  unfold Cycle at h
  split_ifs at h with hpc
  simp only at h
  cases hd : dispatch
      { s with
        opcode := ((s.memory s.pc <<< 8) ||| s.memory (s.pc + 1)) % 65536
        pc := (s.pc + 2) % 65536 } with
  | none => rw [hd] at h; cases h
  | some s2 =>
    rw [hd] at h
    cases h
    exact ⟨hpc, s2, rfl, rfl⟩

/-- C12: when a cycle that fetches any word other than `FX15` and `FX18` ends in
a state, each timer is one less than before if it was above zero and is
still 0 if it was 0. -/
theorem Cycle_timers (s s' : Chip8) (hi lo : Nat) (hhi : s.memory s.pc = hi)
    (hlo : s.memory (s.pc + 1) = lo) (hhi8 : hi < 256) (hlo8 : lo < 256)
    (h15 : ¬ (hi / 16 = 0xF ∧ lo = 0x15)) (h18 : ¬ (hi / 16 = 0xF ∧ lo = 0x18))
    (h : Cycle s = some s') :
    s'.delayTimer = (if s.delayTimer > 0 then s.delayTimer - 1 else 0) ∧
      s'.soundTimer = (if s.soundTimer > 0 then s.soundTimer - 1 else 0) ∧
      (s.delayTimer = 0 → s'.delayTimer = 0) ∧ (s.soundTimer = 0 → s'.soundTimer = 0) := by
  obtain ⟨_, s2, hd, hs'⟩ := Cycle_some s s' h
  have hw : ((s.memory s.pc <<< 8) ||| s.memory (s.pc + 1)) % 65536 = hi * 256 + lo := by
    rw [hhi, hlo, shl8_or _ _ hlo8]; omega
  rw [hw] at hd
  have hkeep : s2.delayTimer = s.delayTimer ∧ s2.soundTimer = s.soundTimer := by
    rcases dispatch_effect _ s2 hd with hu | ⟨_, _, h0⟩ | ⟨_, _, h0⟩ | ⟨_, h0⟩ | ⟨_, h0⟩ |
      ⟨hf, hb, _⟩ | ⟨hf, hb, _⟩ | ⟨_, _, h0⟩ | ⟨_, _, h0⟩
    · exact ⟨hu.2.2.2.1, hu.2.2.2.2⟩
    · have he := OP_00E0_effect _ s2 h0
      exact ⟨he.2.2.1, he.2.2.2⟩
    · have he := OP_00EE_effect _ s2 h0
      exact ⟨he.2.2.2.2.1, he.2.2.2.2.2⟩
    · have he := OP_2NNN_effect _ s2 h0
      exact ⟨he.2.2.2.2.1, he.2.2.2.2.2⟩
    · have he := OP_DXYN_effect _ s2 h0
      exact ⟨he.2.2.1, he.2.2.2⟩
    · exfalso
      apply h15
      have hf' : (hi * 256 + lo) / 4096 % 16 = 0xF := hf
      have hb' : (hi * 256 + lo) % 256 = 0x15 := hb
      omega
    · exfalso
      apply h18
      have hf' : (hi * 256 + lo) / 4096 % 16 = 0xF := hf
      have hb' : (hi * 256 + lo) % 256 = 0x18 := hb
      omega
    · have he := OP_FX33_effect _ s2 h0
      exact ⟨he.2.2.1, he.2.2.2.1⟩
    · have he := OP_FX55_effect _ s2 h0
      exact ⟨he.2.2.1, he.2.2.2.1⟩
  have hdl : s'.delayTimer = (if s.delayTimer > 0 then s.delayTimer - 1 else 0) := by
    rw [hs', tickTimers_delayTimer, hkeep.1]
  have hsn : s'.soundTimer = (if s.soundTimer > 0 then s.soundTimer - 1 else 0) := by
    rw [hs', tickTimers_soundTimer, hkeep.2]
  refine ⟨hdl, hsn, ?_, ?_⟩
  · intro hz
    rw [hdl, hz]; rfl
  · intro hz
    rw [hsn, hz]; rfl

/-- C12 (witness): `6A05` with `delayTimer = 5`, `soundTimer = 0` leaves 4 and 0. -/
theorem Cycle_timers_witness :
    ∃ s', Cycle timersRunning = some s' ∧ s'.delayTimer = 4 ∧ s'.soundTimer = 0 := by
  obtain ⟨s', hs'⟩ : ∃ s', Cycle timersRunning = some s' := ⟨_, rfl⟩
  have h := Cycle_timers timersRunning s' 0x6A 0x05 rfl rfl (by decide) (by decide) (by decide)
    (by decide) hs'
  exact ⟨s', hs', h.1, h.2.1⟩

/-! ## The stack pointer -/

theorem dispatch_sp (s s' : Chip8) (hsp : s.sp ≤ 16) (h : dispatch s = some s') :
    s'.sp ≤ 16 := by
  rcases dispatch_effect s s' h with hu | ⟨_, _, h0⟩ | ⟨_, _, h0⟩ | ⟨_, h0⟩ | ⟨_, h0⟩ |
    ⟨_, _, h0⟩ | ⟨_, _, h0⟩ | ⟨_, _, h0⟩ | ⟨_, _, h0⟩
  · rw [hu.1]; exact hsp
  · rw [(OP_00E0_effect s s' h0).1]; exact hsp
  · exact Nat.le_of_lt (OP_00EE_effect s s' h0).2.1
  · have he := OP_2NNN_effect s s' h0
    rw [he.2.1]
    exact he.1
  · rw [(OP_DXYN_effect s s' h0).1]; exact hsp
  · rw [(OP_FX15_effect s s' h0).1]; exact hsp
  · rw [(OP_FX18_effect s s' h0).1]; exact hsp
  · rw [(OP_FX33_effect s s' h0).1]; exact hsp
  · rw [(OP_FX55_effect s s' h0).1]; exact hsp

/-- C16 (counterexample): nothing guards the stack.  `2NNN` with `sp = 16` stores
to `stack[16]` and would leave `sp = 17`; `00EE` with `sp = 0` wraps `sp` to 255
and reads `stack[255]`.  Both accesses are outside the 16-entry stack and the
instruction yields no state. -/
theorem stack_pointer_unguarded :
    callDepth16.sp ≤ 16 ∧ OP_2NNN callDepth16 = none ∧ dispatch callDepth16 = none ∧
      ¬ ((callDepth16.sp + 1) % 256 ≤ 16) ∧
    returnDepth0.sp ≤ 16 ∧ OP_00EE returnDepth0 = none ∧ dispatch returnDepth0 = none ∧
      ¬ ((returnDepth0.sp + 255) % 256 ≤ 16) := by
  refine ⟨by decide, rfl, rfl, by decide, by decide, rfl, rfl, by decide⟩

/-- C16 (amended): `sp <= 16` holds in the constructed machine, and from a state
with `sp <= 16` every dispatched instruction, and every cycle, that ends in a
state ends in one with `sp <= 16`.  `2NNN` ends in a state whenever `sp < 16`
(then `sp` grows by 1) and `00EE` whenever `1 <= sp` (then `sp` shrinks by 1). -/
theorem sp_invariant (seed : Nat → Nat) (s : Chip8) (hsp : s.sp ≤ 16) :
    (ctor seed).sp ≤ 16 ∧ (∀ s', dispatch s = some s' → s'.sp ≤ 16) ∧
      (∀ s', Cycle s = some s' → s'.sp ≤ 16) ∧
      (s.sp < 16 → ∃ s', OP_2NNN s = some s' ∧ s'.sp = s.sp + 1) ∧
      (1 ≤ s.sp → ∃ s', OP_00EE s = some s' ∧ s'.sp + 1 = s.sp) := by
  refine ⟨Nat.zero_le _, fun s' h => dispatch_sp s s' hsp h, ?_, ?_, ?_⟩
  · intro s' h
    obtain ⟨_, s2, hd, hs'⟩ := Cycle_some s s' h
    rw [hs', tickTimers_sp]
    exact dispatch_sp
      { s with
        opcode := ((s.memory s.pc <<< 8) ||| s.memory (s.pc + 1)) % 65536
        pc := (s.pc + 2) % 65536 } s2 hsp hd
  · intro hlt
    have e : (s.sp + 1) % 256 = s.sp + 1 := by omega
    refine ⟨{ s with stack := setAt s.stack s.sp s.pc, sp := (s.sp + 1) % 256,
                     pc := s.opcode &&& 0x0FFF }, ?_, e⟩
    unfold OP_2NNN
    exact if_pos hlt
  · intro hge
    have hlt : (s.sp + 255) % 256 < 16 := by omega
    refine ⟨{ s with sp := (s.sp + 255) % 256, pc := s.stack ((s.sp + 255) % 256) }, ?_, ?_⟩
    · unfold OP_00EE
      exact if_pos hlt
    · show (s.sp + 255) % 256 + 1 = s.sp
      omega

/-- C16 (witness): `00EE` at depth 3 ends in a state with `sp = 2`. -/
theorem sp_invariant_witness :
    ∃ s', dispatch returnDepth3 = some s' ∧ s'.sp ≤ 16 ∧ s'.sp + 1 = returnDepth3.sp := by
  have h := sp_invariant (fun _ => 0) returnDepth3 (by decide)
  exact ⟨_, rfl, h.2.1 _ rfl, by decide⟩

/-! ## Memory below the program area -/

/-- A dispatched instruction that ends in a state leaves every memory byte as
it was, except that `FX33` and `FX55` may change bytes at `index` and above. -/
theorem dispatch_memory (s s' : Chip8) (h : dispatch s = some s') (a : Nat)
    (ha : s.opcode / 4096 % 16 = 0xF ∧ (s.opcode % 256 = 0x33 ∨ s.opcode % 256 = 0x55) →
      a < s.index) : s'.memory a = s.memory a := by
  rcases dispatch_effect s s' h with hu | ⟨_, _, h0⟩ | ⟨_, _, h0⟩ | ⟨_, h0⟩ | ⟨_, h0⟩ |
    ⟨_, _, h0⟩ | ⟨_, _, h0⟩ | ⟨hf, hb, h0⟩ | ⟨hf, hb, h0⟩
  · rw [hu.2.1]
  · rw [(OP_00E0_effect s s' h0).2.1]
  · rw [(OP_00EE_effect s s' h0).2.2.1]
  · rw [(OP_2NNN_effect s s' h0).2.2.1]
  · rw [(OP_DXYN_effect s s' h0).2.1]
  · rw [(OP_FX15_effect s s' h0).2.1]
  · rw [(OP_FX18_effect s s' h0).2.1]
  · exact (OP_FX33_effect s s' h0).2.2.2.2.2 a (ha ⟨hf, Or.inl hb⟩)
  · exact (OP_FX55_effect s s' h0).2.2.2.2.2 a (ha ⟨hf, Or.inr hb⟩)

/-- C17 (counterexample): a fresh machine loaded with `A050 F033` sets `index` to
`0x50` in its first cycle and in its second stores the digits of `V0 = 0` at
`0x50 .. 0x52`, over the first glyph of the font: `memory[0x50]` goes from
`0xF0` to `0`. -/
theorem font_overwritten :
    ∃ m s1 s2, LoadROM true (some fontClobberRom) (ctor (fun _ => 0)) = some m ∧
      Cycle m = some s1 ∧ Cycle s1 = some s2 ∧ s1.memory 0x50 = 0xF0 ∧ s1.index = 0x50 ∧
      s2.memory 0x50 = 0 ∧ ¬ (s2.memory 0x50 = s1.memory 0x50) := by
  refine ⟨_, _, _, rfl, rfl, rfl, ?_, ?_, ?_, ?_⟩ <;> decide

/-- C17 (amended): when a cycle ends in a state, every memory byte below `0x200`
is as it was before, provided the word fetched is not `FX33` or `FX55`, or
`index` is at least `0x200`. -/
theorem Cycle_memory_below_0x200 (s s' : Chip8) (hi lo : Nat) (hhi : s.memory s.pc = hi)
    (hlo : s.memory (s.pc + 1) = lo) (hhi8 : hi < 256) (hlo8 : lo < 256)
    (hidx : hi / 16 = 0xF ∧ (lo = 0x33 ∨ lo = 0x55) → 0x200 ≤ s.index)
    (h : Cycle s = some s') :
    ∀ a < 0x200, s'.memory a = s.memory a := by
  intro a ha
  obtain ⟨_, s2, hd, hs'⟩ := Cycle_some s s' h
  have hw : ((s.memory s.pc <<< 8) ||| s.memory (s.pc + 1)) % 65536 = hi * 256 + lo := by
    rw [hhi, hlo, shl8_or _ _ hlo8]; omega
  rw [hw] at hd
  rw [hs', tickTimers_memory]
  refine dispatch_memory { s with opcode := hi * 256 + lo, pc := (s.pc + 2) % 65536 } s2 hd a ?_
  intro hfx
  have hf : (hi * 256 + lo) / 4096 % 16 = 0xF := hfx.1
  have hb : (hi * 256 + lo) % 256 = 0x33 ∨ (hi * 256 + lo) % 256 = 0x55 := hfx.2
  have h200 : 0x200 ≤ s.index := hidx ⟨by omega, by omega⟩
  show a < s.index
  omega

/-- C17 (witness): `F433` with `index = 0x300` leaves the memory below `0x200` alone. -/
theorem Cycle_memory_below_0x200_witness :
    ∃ s', Cycle bcdFetch = some s' ∧ s'.memory 0x300 = 1 ∧
      ∀ a < 0x200, s'.memory a = bcdFetch.memory a := by
  obtain ⟨s', hs', h0⟩ : ∃ s', Cycle bcdFetch = some s' ∧ s'.memory 0x300 = 1 :=
    ⟨_, rfl, by decide⟩
  exact ⟨s', hs', h0, Cycle_memory_below_0x200 bcdFetch s' 0xF4 0x33 rfl rfl (by decide)
    (by decide) (fun _ => by decide) hs'⟩

/-! ## The framebuffer -/

/-- C18: a dispatched instruction other than `00E0` (family 0, low nibble 0) and
`DXYN` that ends in a state leaves every framebuffer cell as it was. -/
theorem dispatch_video (s s' : Chip8) (h : dispatch s = some s')
    (hclear : ¬ (s.opcode / 4096 % 16 = 0x0 ∧ s.opcode % 16 = 0x0))
    (hdraw : s.opcode / 4096 % 16 ≠ 0xD) :
    ∀ k, s'.video k = s.video k := by
  intro k
  rcases dispatch_effect s s' h with hu | ⟨hf, hn, _⟩ | ⟨_, _, h0⟩ | ⟨_, h0⟩ | ⟨hf, _⟩ |
    ⟨_, _, h0⟩ | ⟨_, _, h0⟩ | ⟨_, _, h0⟩ | ⟨_, _, h0⟩
  · rw [hu.2.2.1]
  · exact absurd ⟨hf, hn⟩ hclear
  · rw [(OP_00EE_effect s s' h0).2.2.2.1]
  · rw [(OP_2NNN_effect s s' h0).2.2.2.1]
  · exact absurd hf hdraw
  · rw [(OP_FX15_effect s s' h0).2.2.1]
  · rw [(OP_FX18_effect s s' h0).2.2.1]
  · rw [(OP_FX33_effect s s' h0).2.1]
  · rw [(OP_FX55_effect s s' h0).2.1]

/-- C18 (witness): `F433` with `index = 0x300` leaves the framebuffer alone. -/
theorem dispatch_video_witness :
    ∃ s', dispatch bcd157 = some s' ∧ ∀ k, s'.video k = bcd157.video k :=
  ⟨_, rfl, dispatch_video bcd157 _ rfl (by decide) (by decide)⟩

/-! ## The sample program -/

theorem tickTimers_index (s : Chip8) : (tickTimers s).index = s.index := by
  unfold tickTimers; dsimp only; split <;> split <;> rfl

theorem tickTimers_video (s : Chip8) : (tickTimers s).video = s.video := by
  unfold tickTimers; dsimp only; split <;> split <;> rfl

/-- A cycle that fetches `6XKK`. -/
theorem Cycle_6XKK (s : Chip8) (X KK : Nat) (hX : X < 16) (hKK : KK < 256)
    (hpc : s.pc + 1 < 4096) (hhi : s.memory s.pc = 0x60 + X)
    (hlo : s.memory (s.pc + 1) = KK) :
    ∃ s', Cycle s = some s' ∧ s'.registers = setAt s.registers X KK ∧ s'.pc = s.pc + 2 ∧
      s'.memory = s.memory ∧ s'.index = s.index ∧ s'.video = s.video := by
  have hf := Cycle_fetch s (0x60 + X) KK hpc hhi hlo (by omega) hKK
  have hVX : (((0x60 + X) * 256 + KK) &&& 0x0F00) >>> 8 = X := by
    rw [and_0F00_shr]; omega
  have hbyte : ((0x60 + X) * 256 + KK) &&& 0x00FF = KK := by
    rw [and_00FF]; omega
  have hfam : ((0x60 + X) * 256 + KK) / 4096 % 16 = 0x6 := by omega
  have hd : dispatch { s with opcode := (0x60 + X) * 256 + KK, pc := s.pc + 2 } =
      some { s with opcode := (0x60 + X) * 256 + KK, pc := s.pc + 2,
                    registers := setAt s.registers X KK } := by
    unfold dispatch
    rw [and_F000_shr]
    simp only [hfam]
    show OP_6XKK _ = _
    unfold OP_6XKK
    simp only [hVX, hbyte]
  refine ⟨tickTimers _, hf.trans (congrArg (Option.map tickTimers) hd), ?_, ?_, ?_, ?_, ?_⟩
  · rw [tickTimers_registers]
  · rw [tickTimers_pc]
  · rw [tickTimers_memory]
  · rw [tickTimers_index]
  · rw [tickTimers_video]

/-- A cycle that fetches `ANNN`. -/
theorem Cycle_ANNN (s : Chip8) (NNN : Nat) (hN : NNN < 4096) (hpc : s.pc + 1 < 4096)
    (hhi : s.memory s.pc = 0xA0 + NNN / 256) (hlo : s.memory (s.pc + 1) = NNN % 256) :
    ∃ s', Cycle s = some s' ∧ s'.index = NNN ∧ s'.registers = s.registers ∧
      s'.pc = s.pc + 2 ∧ s'.memory = s.memory ∧ s'.video = s.video := by
  have hf := Cycle_fetch s (0xA0 + NNN / 256) (NNN % 256) hpc hhi hlo (by omega) (by omega)
  have hadr : ((0xA0 + NNN / 256) * 256 + NNN % 256) &&& 0x0FFF = NNN := by
    rw [and_0FFF]; omega
  have hfam : ((0xA0 + NNN / 256) * 256 + NNN % 256) / 4096 % 16 = 0xA := by omega
  have hd : dispatch { s with opcode := (0xA0 + NNN / 256) * 256 + NNN % 256, pc := s.pc + 2 } =
      some { s with opcode := (0xA0 + NNN / 256) * 256 + NNN % 256, pc := s.pc + 2,
                    index := NNN } := by
    unfold dispatch
    rw [and_F000_shr]
    simp only [hfam]
    show OP_ANNN _ = _
    unfold OP_ANNN
    simp only [hadr]
  refine ⟨tickTimers _, hf.trans (congrArg (Option.map tickTimers) hd), ?_, ?_, ?_, ?_, ?_⟩
  · rw [tickTimers_index]
  · rw [tickTimers_registers]
  · rw [tickTimers_pc]
  · rw [tickTimers_memory]
  · rw [tickTimers_video]

/-- A cycle that fetches `DXY0`, a draw of no rows. -/
theorem Cycle_DXY0 (s : Chip8) (X Y : Nat) (hX : X < 16) (hY : Y < 16)
    (hpc : s.pc + 1 < 4096) (hhi : s.memory s.pc = 0xD0 + X)
    (hlo : s.memory (s.pc + 1) = 0x10 * Y) :
    ∃ s', Cycle s = some s' ∧ s'.video = s.video ∧
      s'.registers = setAt s.registers 0xF 0 := by
  have hf := Cycle_fetch s (0xD0 + X) (0x10 * Y) hpc hhi hlo (by omega) (by omega)
  have hNib : ((0xD0 + X) * 256 + 0x10 * Y) &&& 0x000F = 0 := by
    rw [and_000F]; omega
  have hfam : ((0xD0 + X) * 256 + 0x10 * Y) / 4096 % 16 = 0xD := by omega
  have hd : dispatch { s with opcode := (0xD0 + X) * 256 + 0x10 * Y, pc := s.pc + 2 } =
      some { s with opcode := (0xD0 + X) * 256 + 0x10 * Y, pc := s.pc + 2,
                    registers := setAt s.registers 0xF 0 } := by
    unfold dispatch
    rw [and_F000_shr]
    simp only [hfam]
    show OP_DXYN _ = _
    unfold OP_DXYN
    simp only [hNib]
    rfl
  refine ⟨tickTimers _, hf.trans (congrArg (Option.map tickTimers) hd), ?_, ?_⟩
  · rw [tickTimers_video]
  · rw [tickTimers_registers]

/-- What `LoadROM` leaves behind for a ROM that fits into memory. -/
theorem LoadROM_loaded (cs : Bool) (rom : List Nat) (s : Chip8)
    (hlen : rom.length ≤ 4096 - 0x200) :
    LoadROM cs (some rom) s = some
      { s with
        memory := fun a =>
          if 0x200 ≤ a ∧ a < 0x200 + rom.length then toU8 (toChar cs (rom.getD (a - 0x200) 0))
          else s.memory a } :=
  copy_loop cs rom s rom.length (by omega)

/-- C14: a fresh machine loaded with `6A 05 A2 50 D0 A0` has `VA = 5` after its
first cycle, `index = 0x250` after its second, and after its third (`D0A0`, a
draw of no rows) the framebuffer of before and `VF = 0`.  In every state a
`DXY0` leaves every framebuffer cell as it was and sets `VF = 0`. -/
theorem sample_program_and_DXY0 (seed : Nat → Nat) (cs : Bool) :
    (∃ m s1 s2 s3, LoadROM cs (some sampleRom) (ctor seed) = some m ∧
      Cycle m = some s1 ∧ s1.registers 0xA = 5 ∧
      Cycle s1 = some s2 ∧ s2.index = 0x250 ∧
      Cycle s2 = some s3 ∧ (∀ k, s3.video k = s2.video k) ∧ s3.registers 0xF = 0) ∧
    (∀ (s : Chip8) (X Y : Nat), X < 16 → Y < 16 →
      s.opcode = 0xD000 + 0x100 * X + 0x10 * Y →
      ∃ s', OP_DXYN s = some s' ∧ (∀ k, s'.video k = s.video k) ∧ s'.registers 0xF = 0) := by
  constructor
  · obtain ⟨m', hm, hpc0, hbytes⟩ : ∃ m, LoadROM cs (some sampleRom) (ctor seed) = some m ∧
        m.pc = 0x200 ∧ ∀ i < 6, m.memory (0x200 + i) = sampleRom.getD i 0 := by
      refine ⟨_, LoadROM_loaded cs sampleRom (ctor seed) (by decide), rfl, ?_⟩
      intro i hi
      show (if 0x200 ≤ 0x200 + i ∧ 0x200 + i < 0x200 + 6 then
        toU8 (toChar cs (sampleRom.getD (0x200 + i - 0x200) 0))
        else (ctor seed).memory (0x200 + i)) = sampleRom.getD i 0
      rw [if_pos (by omega), Nat.add_sub_cancel_left]
      exact toU8_toChar cs _ (by interval_cases i <;> decide)
    have b0 : m'.memory 0x200 = 0x6A := hbytes 0 (by decide)
    have b1 : m'.memory 0x201 = 0x05 := hbytes 1 (by decide)
    have b2 : m'.memory 0x202 = 0xA2 := hbytes 2 (by decide)
    have b3 : m'.memory 0x203 = 0x50 := hbytes 3 (by decide)
    have b4 : m'.memory 0x204 = 0xD0 := hbytes 4 (by decide)
    have b5 : m'.memory 0x205 = 0xA0 := hbytes 5 (by decide)
    obtain ⟨s1, h1, hr1, hp1, hm1, _, _⟩ :=
      Cycle_6XKK m' 0xA 0x05 (by decide) (by decide) (by rw [hpc0]; decide)
        (by rw [hpc0]; exact b0) (by rw [hpc0]; exact b1)
    have hpc1 : s1.pc = 0x202 := by rw [hp1, hpc0]
    obtain ⟨s2, h2, hi2, _, hp2, hm2, _⟩ :=
      Cycle_ANNN s1 0x250 (by decide) (by rw [hpc1]; decide)
        (by rw [hpc1, hm1]; exact b2) (by rw [hpc1, hm1]; exact b3)
    have hpc2 : s2.pc = 0x204 := by rw [hp2, hpc1]
    obtain ⟨s3, h3, hv3, hr3⟩ :=
      Cycle_DXY0 s2 0x0 0xA (by decide) (by decide) (by rw [hpc2]; decide)
        (by rw [hpc2, hm2, hm1]; exact b4) (by rw [hpc2, hm2, hm1]; exact b5)
    refine ⟨m', s1, s2, s3, hm, h1, ?_, h2, hi2, h3, ?_, ?_⟩
    · rw [hr1]; exact setAt_same _ _ _
    · intro k; rw [hv3]
    · rw [hr3]; exact setAt_same _ _ _
  · intro s X Y hX hY hop
    have hNib : s.opcode &&& 0x000F = 0 := by rw [and_000F, hop]; omega
    refine ⟨{ s with registers := setAt s.registers 0xF 0 }, ?_, fun _ => rfl,
      setAt_same s.registers 0xF 0⟩
    unfold OP_DXYN
    simp only [hNib]
    rfl

/-! ## Font glyphs -/

theorem ctor_font (seed : Nat → Nat) :
    ∀ i < 80, (ctor seed).memory (0x50 + i) = fontset.getD i 0 := by
  intro i hi
  interval_cases i <;> rfl

/-- C15: in a machine whose font area `0x50 .. 0x9F` is as the constructor left
it, `FX29` with a digit d in 0..15 in V[X] sets `index = 0x50 + 5 * d`, and the
five bytes from there are the five glyph bytes `fontset[5 * d .. 5 * d + 4]`. -/
theorem OP_FX29_glyph (seed : Nat → Nat) (s : Chip8) (X d : Nat) (hX : X < 16)
    (hd : d < 16) (hop : s.opcode = 0xF029 + 0x100 * X) (hv : s.registers X = d)
    (hfont : ∀ a, 0x50 ≤ a → a < 0xA0 → s.memory a = (ctor seed).memory a) :
    ∃ s', OP_FX29 s = some s' ∧ s'.index = 0x50 + 5 * d ∧
      ∀ j < 5, s'.memory (s'.index + j) = fontset.getD (5 * d + j) 0 := by
  have hVX : (s.opcode &&& 0x0F00) >>> 8 = X := by rw [and_0F00_shr, hop]; omega
  have hi : (0x50 + 5 * d) % 65536 = 0x50 + 5 * d := by omega
  have hrun : OP_FX29 s = some { s with index := 0x50 + 5 * d } := by
    unfold OP_FX29
    simp only [hVX, hv, hi]
  refine ⟨_, hrun, rfl, ?_⟩
  intro j hj
  show s.memory (0x50 + 5 * d + j) = fontset.getD (5 * d + j) 0
  rw [hfont _ (by omega) (by omega), Nat.add_assoc, ctor_font seed (5 * d + j) (by omega)]

/-- C15 (witness): `F329` with `V3 = 0xB` in a fresh machine points `index` at
`0x87`, where the glyph `E0 90 E0 90 E0` lies. -/
theorem OP_FX29_glyph_witness :
    ∃ s', OP_FX29 glyphOfB = some s' ∧ s'.index = 0x50 + 5 * 0xB ∧
      ∀ j < 5, s'.memory (s'.index + j) = fontset.getD (5 * 0xB + j) 0 :=
  OP_FX29_glyph (fun _ => 0) glyphOfB 3 0xB (by decide) (by decide) (by decide) (by decide)
    (fun _ _ _ => rfl)

/-! ## Drawing twice -/

/-- C19: when the sprite fits the grid (`V[X] mod 64 <= 56`, `V[Y] mod 32 + N <= 32`),
its bytes lie in memory (`index + N <= 4096`) and neither X nor Y is 0xF, every
cell that `DXYN` can touch is below `64 * 32`, and two `DXYN` in a row restore
every framebuffer cell; memory, `index` and every register but VF are as
before.  (The cells need not be 0 or 0xFFFFFFFF for this.) -/
theorem OP_DXYN_twice (s : Chip8) (X Y N : Nat) (hX : X < 16) (hY : Y < 16) (hN : N < 16)
    (hXF : X ≠ 0xF) (hYF : Y ≠ 0xF) (hop : s.opcode = 0xD000 + 0x100 * X + 0x10 * Y + N)
    (hx : s.registers X % 64 ≤ 56) (hy : s.registers Y % 32 + N ≤ 32)
    (hidx : s.index + N ≤ 4096) :
    (∀ r < N, ∀ c < 8, (s.registers Y % 32 + r) * 64 + (s.registers X % 64 + c) < 64 * 32) ∧
    ∃ s1 s2, OP_DXYN s = some s1 ∧ OP_DXYN s1 = some s2 ∧
      (∀ k, s2.video k = s.video k) ∧ s2.memory = s.memory ∧ s2.index = s.index ∧
      ∀ i, i ≠ 0xF → s2.registers i = s.registers i := by
  have hfit : ∀ r < N, ∀ c < 8,
      (s.registers Y % 32 + r) * 64 + (s.registers X % 64 + c) < 64 * 32 := by
    intro r hr c hc
    omega
  refine ⟨hfit, ?_⟩
  obtain ⟨s1, h1, hfr1, hset1, hoth1, hcol1, hnocol1⟩ :=
    OP_DXYN_draw s X Y N hX hY hN hop (fun r hr => by omega)
      (fun r hr c hc _ => hfit r hr c hc)
  have hreg1 : ∀ i, i ≠ 0xF → s1.registers i = s.registers i := by
    intro i hi
    by_cases hc : ∃ r < N, ∃ c < 8, s.memory (s.index + r) &&& (0x80 >>> c) ≠ 0 ∧
        s.video ((s.registers Y % 32 + r) * 64 + (s.registers X % 64 + c)) = 0xFFFFFFFF
    · rw [hcol1 hc, setAt_other _ _ _ _ hi]
    · rw [hnocol1 (fun r hr c hc' hb hF => hc ⟨r, hr, c, hc', hb, hF⟩),
        setAt_other _ _ _ _ hi]
  have hop1 : s1.opcode = s.opcode := by
    have hz := congrArg Chip8.opcode hfr1
    exact hz
  have hidx1 : s1.index = s.index := by
    have hz := congrArg Chip8.index hfr1
    exact hz
  have hmem1 : s1.memory = s.memory := by
    have hz := congrArg Chip8.memory hfr1
    exact hz
  have hX1 : s1.registers X = s.registers X := hreg1 X hXF
  have hY1 : s1.registers Y = s.registers Y := hreg1 Y hYF
  obtain ⟨s2, h2, hfr2, hset2, hoth2, hcol2, hnocol2⟩ :=
    OP_DXYN_draw s1 X Y N hX hY hN (hop1.trans hop) (fun r hr => by rw [hidx1]; omega)
      (fun r hr c hc _ => by rw [hX1, hY1]; exact hfit r hr c hc)
  have hreg2 : ∀ i, i ≠ 0xF → s2.registers i = s1.registers i := by
    intro i hi
    by_cases hc : ∃ r < N, ∃ c < 8, s1.memory (s1.index + r) &&& (0x80 >>> c) ≠ 0 ∧
        s1.video ((s1.registers Y % 32 + r) * 64 + (s1.registers X % 64 + c)) = 0xFFFFFFFF
    · rw [hcol2 hc, setAt_other _ _ _ _ hi]
    · rw [hnocol2 (fun r hr c hc' hb hF => hc ⟨r, hr, c, hc', hb, hF⟩),
        setAt_other _ _ _ _ hi]
  rw [hX1, hY1, hidx1, hmem1] at hset2 hoth2
  have hidx2 : s2.index = s1.index := by
    have hz := congrArg Chip8.index hfr2
    exact hz
  have hmem2 : s2.memory = s1.memory := by
    have hz := congrArg Chip8.memory hfr2
    exact hz
  refine ⟨s1, s2, h1, h2, ?_, hmem2.trans hmem1, hidx2.trans hidx1,
    fun i hi => (hreg2 i hi).trans (hreg1 i hi)⟩
  intro k
  by_cases hk : ∃ r < N, ∃ c < 8, s.memory (s.index + r) &&& (0x80 >>> c) ≠ 0 ∧
      k = (s.registers Y % 32 + r) * 64 + (s.registers X % 64 + c)
  · obtain ⟨r, hr, c, hc, hb, hkeq⟩ := hk
    rw [hkeq, hset2 r hr c hc hb, hset1 r hr c hc hb, Nat.xor_cancel_right]
  · have hne : ∀ r < N, ∀ c < 8, s.memory (s.index + r) &&& (0x80 >>> c) ≠ 0 →
        k ≠ (s.registers Y % 32 + r) * 64 + (s.registers X % 64 + c) :=
      fun r hr c hc hb hkeq => hk ⟨r, hr, c, hc, hb, hkeq⟩
    rw [hoth2 k hne, hoth1 k hne]

/-- C19 (witness): the two-row sprite `0xA5`, `0x3C` drawn twice at column 6 of
row 8, one target cell being on at the start. -/
theorem OP_DXYN_twice_witness :
    (∀ r < 2, ∀ c < 8, (40 % 32 + r) * 64 + (70 % 64 + c) < 64 * 32) ∧
    ∃ s1 s2, OP_DXYN drawTwoRows = some s1 ∧ OP_DXYN s1 = some s2 ∧
      (∀ k, s2.video k = drawTwoRows.video k) ∧ s2.memory = drawTwoRows.memory ∧
      s2.index = drawTwoRows.index ∧
      ∀ i, i ≠ 0xF → s2.registers i = drawTwoRows.registers i :=
  OP_DXYN_twice drawTwoRows 1 2 2 (by decide) (by decide) (by decide) (by decide) (by decide)
    (by decide) (by decide) (by decide) (by decide)

/-! ## Register block store and load -/

theorem forLoop_none_add {σ : Type} (body : Nat → σ → Option σ) (s : σ) (n k : Nat)
    (h : forLoop n body s = none) : forLoop (n + k) body s = none := by
  induction k with
  | zero => exact h
  | succ k ih =>
    show (forLoop (n + k) body s).bind (body (n + k)) = none
    rw [ih]; rfl

theorem loopU8_from (VX : Nat) (hVX : VX < 255) (body : Nat → Chip8 → Option Chip8)
    (s : Chip8) (d : Nat) :
    ∀ i t, i + d = VX + 1 → forLoop i body s = some t →
      loopU8 VX body (d + 1) i t = some (forLoop (VX + 1) body s) := by
  induction d with
  | zero =>
    intro i t hi ht
    have hi' : i = VX + 1 := by omega
    subst hi'
    rw [ht]
    show (if VX + 1 ≤ VX then _ else some (some t)) = some (some t)
    exact if_neg (by omega)
  | succ d ih =>
    intro i t hi ht
    have hle : i ≤ VX := by omega
    have hwrap : (i + 1) % 256 = i + 1 := by omega
    have hnext : forLoop (i + 1) body s = body i t := by
      show (forLoop i body s).bind (body i) = body i t
      rw [ht]; rfl
    cases hb : body i t with
    | none =>
      have hend : forLoop (VX + 1) body s = none := by
        have hz := forLoop_none_add body s (i + 1) d (hnext.trans hb)
        have he : i + 1 + d = VX + 1 := by omega
        rw [he] at hz
        exact hz
      rw [hend]
      show (if i ≤ VX then
        (match body i t with
          | none => some none
          | some t' => loopU8 VX body (d + 1) ((i + 1) % 256) t')
        else some (some t)) = some none
      rw [if_pos hle, hb]
    | some t' =>
      show (if i ≤ VX then
        (match body i t with
          | none => some none
          | some t' => loopU8 VX body (d + 1) ((i + 1) % 256) t')
        else some (some t)) = some (forLoop (VX + 1) body s)
      rw [if_pos hle, hb, hwrap]
      exact ih (i + 1) t' (by omega) (hnext.trans hb)

/-- The literal 8-bit loop ends within `VX + 2` tests of its condition and does
what `forLoop (VX + 1)` does, as long as `VX` is below 255. -/
theorem loopU8_terminates (VX : Nat) (hVX : VX < 255) (body : Nat → Chip8 → Option Chip8)
    (s : Chip8) : loopU8 VX body (VX + 2) 0 s = some (forLoop (VX + 1) body s) :=
  loopU8_from VX hVX body s (VX + 1) 0 s (by omega) rfl

theorem store_loop (s : Chip8) (n : Nat) (hn : s.index + n ≤ 4096) :
    forLoop n storeRegister s = some
      { s with
        memory := fun a =>
          if s.index ≤ a ∧ a < s.index + n then s.registers (a - s.index) else s.memory a } := by
  induction n with
  | zero =>
    have e : (fun a => if s.index ≤ a ∧ a < s.index + 0 then s.registers (a - s.index)
        else s.memory a) = s.memory := by
      funext a
      exact if_neg (by omega)
    rw [e]; rfl
  | succ n ih =>
    have hlt : s.index + n < 4096 := by omega
    show (forLoop n storeRegister s).bind (storeRegister n) = _
    rw [ih (by omega)]
    show storeRegister n _ = _
    unfold storeRegister
    rw [if_pos hlt]
    congr 2
    funext a
    unfold setAt
    dsimp only
    by_cases h1 : a = s.index + n
    · subst h1
      rw [if_pos rfl, if_pos (by omega), Nat.add_sub_cancel_left]
    · rw [if_neg h1]
      by_cases h2 : s.index ≤ a ∧ a < s.index + n
      · rw [if_pos h2, if_pos (by omega)]
      · rw [if_neg h2, if_neg (by omega)]

theorem load_loop (s : Chip8) (n : Nat) (hn : s.index + n ≤ 4096) :
    forLoop n loadRegister s = some
      { s with
        registers := fun i => if i < n then s.memory (s.index + i) else s.registers i } := by
  induction n with
  | zero =>
    have e : (fun i => if i < 0 then s.memory (s.index + i) else s.registers i) =
        s.registers := by
      funext i
      exact if_neg (by omega)
    rw [e]; rfl
  | succ n ih =>
    have hlt : s.index + n < 4096 := by omega
    show (forLoop n loadRegister s).bind (loadRegister n) = _
    rw [ih (by omega)]
    show loadRegister n _ = _
    unfold loadRegister
    rw [if_pos hlt]
    congr 2
    funext i
    unfold setAt
    dsimp only
    by_cases h1 : i = n
    · subst h1
      rw [if_pos rfl, if_pos (by omega)]
    · rw [if_neg h1]
      by_cases h2 : i < n
      · rw [if_pos h2, if_pos (by omega)]
      · rw [if_neg h2, if_neg (by omega)]

theorem OP_FX55_eq (s : Chip8) :
    OP_FX55 s = forLoop ((s.opcode &&& 0x0F00) >>> 8 + 1) storeRegister s := rfl

theorem OP_FX65_eq (s : Chip8) :
    OP_FX65 s = forLoop ((s.opcode &&& 0x0F00) >>> 8 + 1) loadRegister s := rfl

/-- C20: with X in 0..15 and `index + X < 4096`, `FX55` ends with
`memory[index + i] = V[i]` for every `i <= X`, every other memory byte, every
register and `index` as before; `FX65` with the same X run next ends with all
registers and `index` as they were before `FX55`.  Both loops, read with their
8-bit counter, end within `X + 2` tests of the loop condition. -/
theorem FX55_then_FX65 (s : Chip8) (X : Nat) (hX : X < 16)
    (hop : s.opcode = 0xF055 + 0x100 * X) (hidx : s.index + X < 4096) :
    ∃ s1 s2, OP_FX55 s = some s1 ∧
      OP_FX65 { s1 with opcode := 0xF065 + 0x100 * X } = some s2 ∧
      (∀ i ≤ X, s1.memory (s.index + i) = s.registers i) ∧
      (∀ a, a < s.index ∨ s.index + X < a → s1.memory a = s.memory a) ∧
      s1.registers = s.registers ∧ s1.index = s.index ∧
      (∀ i, s2.registers i = s.registers i) ∧ s2.index = s.index ∧
      loopU8 X storeRegister (X + 2) 0 s = some (OP_FX55 s) ∧
      loopU8 X loadRegister (X + 2) 0 { s1 with opcode := 0xF065 + 0x100 * X } =
        some (OP_FX65 { s1 with opcode := 0xF065 + 0x100 * X }) := by
  have hVX : (s.opcode &&& 0x0F00) >>> 8 = X := by rw [and_0F00_shr, hop]; omega
  have hVX' : ((0xF065 + 0x100 * X) &&& 0x0F00) >>> 8 = X := by rw [and_0F00_shr]; omega
  have h1 : OP_FX55 s = some
      { s with
        memory := fun a =>
          if s.index ≤ a ∧ a < s.index + (X + 1) then s.registers (a - s.index)
          else s.memory a } := by
    rw [OP_FX55_eq, hVX]
    exact store_loop s (X + 1) (by omega)
  have h2 : OP_FX65
      { s with
        memory := fun a =>
          if s.index ≤ a ∧ a < s.index + (X + 1) then s.registers (a - s.index) else s.memory a
        opcode := 0xF065 + 0x100 * X } = some
      { s with
        memory := fun a =>
          if s.index ≤ a ∧ a < s.index + (X + 1) then s.registers (a - s.index) else s.memory a
        opcode := 0xF065 + 0x100 * X
        registers := fun i =>
          if i < X + 1 then
            (if s.index ≤ s.index + i ∧ s.index + i < s.index + (X + 1) then
              s.registers (s.index + i - s.index) else s.memory (s.index + i))
          else s.registers i } := by
    rw [OP_FX65_eq]
    simp only [hVX']
    exact load_loop
      { s with
        memory := fun a =>
          if s.index ≤ a ∧ a < s.index + (X + 1) then s.registers (a - s.index) else s.memory a
        opcode := 0xF065 + 0x100 * X } (X + 1) (by show s.index + (X + 1) ≤ 4096; omega)
  refine ⟨_, _, h1, h2, ?_, ?_, rfl, rfl, ?_, rfl, ?_, ?_⟩
  · intro i hi
    show (if s.index ≤ s.index + i ∧ s.index + i < s.index + (X + 1) then
      s.registers (s.index + i - s.index) else s.memory (s.index + i)) = s.registers i
    rw [if_pos (by omega), Nat.add_sub_cancel_left]
  · intro a ha
    show (if s.index ≤ a ∧ a < s.index + (X + 1) then s.registers (a - s.index)
      else s.memory a) = s.memory a
    exact if_neg (by omega)
  · intro i
    show (if i < X + 1 then
      (if s.index ≤ s.index + i ∧ s.index + i < s.index + (X + 1) then
        s.registers (s.index + i - s.index) else s.memory (s.index + i))
      else s.registers i) = s.registers i
    by_cases hi : i < X + 1
    · rw [if_pos hi, if_pos (by omega), Nat.add_sub_cancel_left]
    · rw [if_neg hi]
  · rw [OP_FX55_eq, hVX]
    exact loopU8_terminates X (by omega) storeRegister s
  · rw [OP_FX65_eq]
    simp only [hVX']
    exact loopU8_terminates X (by omega) loadRegister _

/-- C20 (witness): all sixteen registers (X = 15) stored at `0x300` and loaded back. -/
theorem FX55_then_FX65_witness :
    ∃ s1 s2, OP_FX55 storeAll = some s1 ∧
      OP_FX65 { s1 with opcode := 0xF065 + 0x100 * 15 } = some s2 ∧
      (∀ i ≤ 15, s1.memory (0x300 + i) = i + 1) ∧
      (∀ i, s2.registers i = storeAll.registers i) ∧ s2.index = 0x300 ∧
      loopU8 15 storeRegister (15 + 2) 0 storeAll = some (OP_FX55 storeAll) := by
  obtain ⟨s1, s2, h1, h2, hm, _, _, _, hr, hi, ht, _⟩ :=
    FX55_then_FX65 storeAll 15 (by decide) (by decide) (by decide)
  exact ⟨s1, s2, h1, h2, hm, hr, hi, ht⟩

/-- The literal 8-bit loop is not bounded by construction: with a bound of 255
the condition `i <= 255` holds for every 8-bit `i` and no amount of fuel ends
the loop.  (`VX` is a nibble, so the handlers never run it with such a bound.) -/
theorem loopU8_255_never_ends (s : Chip8) (fuel : Nat) :
    ∀ i t, i < 256 → loopU8 255 (fun _ u => some u) fuel i t ≠ some (some s) := by
  induction fuel with
  | zero =>
    intro i t _ h
    cases (h : (none : Option (Option Chip8)) = some (some s))
  | succ fuel ih =>
    intro i t hi h
    have hle : i ≤ 255 := by omega
    have hstep : loopU8 255 (fun _ u => some u) (fuel + 1) i t =
        loopU8 255 (fun _ u => some u) fuel ((i + 1) % 256) t := by
      show (if i ≤ 255 then _ else _) = _
      rw [if_pos hle]
    rw [hstep] at h
    exact ih _ _ (Nat.mod_lt _ (by decide)) h

end Chip8
